import Mathlib

/-!
# Chain observer of `zetaclient/chain_client.go`

A shallow embedding of the per-chain observer: the confirmed-scan cursor
(`LastBlock`), the observe cycle (`observeChain`), the point query
(`IsSendOutTxProcessed`) and the varint form in which the cursor is kept
under `PosKey`.

Conventions of the embedding.

* Go `uint64` values are natural numbers; every `uint64` addition and
  subtraction of the source is written with `add64` / `sub64`, which wrap
  modulo `2 ^ 64` as the machine does.
* Calls that leave the process (the chain RPC, the coordinator bridge, the
  key/value store) are fields of `Env`.  Each one receives the list of
  effects performed so far, so its answer may differ from call to call.
* The effects of a run are collected, in order, in a list of `Event`s.
* A Go run-time panic (index out of range) and `log.Fatal` (which ends the
  process) are outcomes of their own, next to a normal return.
* Constants and tables of package `config`, the two event signature hashes
  (Keccak-256 digests) and the ABI decoder are fields of `Config`.
* Hashes, addresses and amounts are kept as the values they denote; their
  hexadecimal, decimal or base64 renderings are injective and are not
  modelled.
* The observer is one that `NewChainObserver` built with a store directory,
  so that its `db` handle is open.
-/

namespace ZetaClient

/-! ## Machine integers -/

/-- Number of values of a Go `uint64`. -/
def u64 : Nat := 2 ^ 64

/-- Addition on `uint64`: wraps around. -/
def add64 (a b : Nat) : Nat := (a + b) % u64

/-- Subtraction on `uint64`: wraps around. -/
def sub64 (a b : Nat) : Nat := (a % u64 + (u64 - b % u64)) % u64

/-! ## Data -/

/-- A 32-byte hash (`ethcommon.Hash`), kept as the number it denotes. -/
abbrev Hash := Nat

/-- A byte string. -/
abbrev Bytes := List Nat

/-- The fields of `types.Log` that the observer reads. -/
structure Log where
  Topics : List Hash
  Data : Bytes
  TxHash : Hash
  BlockNumber : Nat
deriving DecidableEq

/-- Non-indexed fields of `ZetaSent`, in declaration order: the six values
that `abi.Unpack("ZetaSent", data)` yields. -/
structure ZetaSentVals where
  destChainID : Nat
  destContract : Bytes
  zetaAmount : Nat
  gasLimit : Nat
  message : Bytes
  zetaParams : Bytes
deriving DecidableEq

/-- Non-indexed fields of `ZetaReceived`, in declaration order: the three
values that `abi.Unpack("ZetaReceived", data)` yields. -/
structure ZetaReceivedVals where
  originSenderAddress : Bytes
  zetaAmount : Nat
  message : Bytes
deriving DecidableEq

/-- Receive status of package `common`. -/
inductive ReceiveStatus where
  | Success
  | Failed
deriving DecidableEq

/-- Package `config`, the signature hashes and the contract ABI. -/
structure Config where
  MAX_BLOCKS_PER_PERIOD : Nat
  ETH_CONFIRMATION_COUNT : Nat
  MPIContractAddress : String → String
  FindChainByID : Nat → String
  logZetaSentSignatureHash : Hash
  logZetaReceivedSignatureHash : Hash
  unpackZetaSent : Bytes → Option ZetaSentVals
  unpackZetaReceived : Bytes → Option ZetaReceivedVals

/-- The fields of `ChainObserver` that the two operations read or write. -/
structure ChainObserver where
  chain : String
  mpiAddress : String
  LastBlock : Nat
  confCount : Nat
deriving DecidableEq

/-- The value `ethereum.FilterQuery`; a block bound `none` is Go's `nil`. -/
structure FilterQuery where
  Addresses : List String
  FromBlock : Option Nat
  ToBlock : Option Nat
  Topics : List (List Hash)
deriving DecidableEq

/-- Arguments of one `bridge.PostSend` call, in the order of the source. -/
structure PostSendCall where
  sender : Hash
  senderChain : String
  receiver : Bytes
  receiverChain : String
  mBurnt : Nat
  mMint : Nat
  message : Bytes
  inTxHash : Hash
  inBlockHeight : Nat
deriving DecidableEq

/-- Arguments of one `bridge.PostReceiveConfirmation` call, in the order of
the source. -/
structure PostReceiveCall where
  sendHash : Hash
  outTxHash : Hash
  outBlockHeight : Nat
  mMint : Nat
  status : ReceiveStatus
  chain : String
deriving DecidableEq

/-- An effect visible outside the observer. -/
inductive Event where
  | FilterLogs (query : FilterQuery)
  | PostSend (call : PostSendCall)
  | PostReceiveConfirmation (call : PostReceiveCall)
  | DbPut (key : String) (value : Bytes)
  | LogErr (msg : String)
deriving DecidableEq

/-- The outside world.  Every call sees the effects performed before it. -/
structure Env where
  HeaderByNumber : Except String Nat
  FilterLogs : List Event → FilterQuery → Except String (List Log)
  PostSend : List Event → PostSendCall → Except String String
  PostReceiveConfirmation : List Event → PostReceiveCall → Except String String
  dbPut : List Event → String → Bytes → Option String

/-- How a call ends: it returns, it panics, or `log.Fatal` ends the process. -/
inductive Outcome (α : Type) where
  | returned (value : α)
  | panicked
  | exited
deriving DecidableEq

/-- The key of the cursor in the store. -/
def PosKey : String := "PosKey"

/-! ## Varint form of the cursor (`encoding/binary`) -/

/-- The constant `binary.MaxVarintLen64`. -/
def MaxVarintLen64 : Nat := 10

/-- The loop of `binary.PutUvarint` of the Go standard library
(`for x >= 0x80 { buf[i] = byte(x) | 0x80; x >>= 7; i++ }; buf[i] = byte(x);
return i + 1`), started at index `i` of the buffer; the argument lists the cells of the buffer from index `i` on.  The result gives
the cells from `i` on after the writes and the number of bytes written.
Writing beyond the last cell is `none`, the index panic of Go. -/
def putUvarintFrom : List Nat → Nat → Option (List Nat × Nat)
  | [], _ => none
  | _ :: cells, x =>
    if x ≥ 0x80 then
      match putUvarintFrom cells (x >>> 7) with
      | none => none
      | some (written, n) => some ((x % 256 ||| 0x80) :: written, n + 1)
    else some ((x % 256) :: cells, 1)

/-- The function `binary.PutUvarint(buf, x)`: the buffer afterwards and the
number of bytes written. -/
def PutUvarint (buf : List Nat) (x : Nat) : Option (List Nat × Nat) :=
  putUvarintFrom buf x

/-- The loop of `binary.Uvarint` of the Go standard library over the bytes
from index `i` on, with the accumulator `x` and the shift `s`: a byte below
`0x80` ends the value (overflow when it is the tenth byte and exceeds 1, or
when an eleventh byte is read), any other byte adds its low seven bits at
shift `s`. -/
def uvarintLoop : List Nat → Nat → Nat → Nat → Nat × Int
  | [], _, _, _ => (0, 0)
  | b :: rest, x, s, i =>
    if i = MaxVarintLen64 then (0, -((i : Int) + 1))
    else if b < 0x80 then
      if i = MaxVarintLen64 - 1 ∧ b > 1 then (0, -((i : Int) + 1))
      else (x ||| (b <<< s) % u64, (i : Int) + 1)
    else uvarintLoop rest (x ||| ((b &&& 0x7f) <<< s) % u64) (s + 7) (i + 1)

/-- The function `binary.Uvarint(buf)`: the value and the number of bytes
read (`0` when the buffer is too small, negative on overflow). -/
def Uvarint (buf : List Nat) : Nat × Int :=
  uvarintLoop buf 0 0 0

/-- The bytes stored under `PosKey` for a height: `buf[:n]` after
`binary.PutUvarint` into a fresh buffer of `MaxVarintLen64` bytes. -/
def encodeCursor (height : Nat) : Option Bytes :=
  match PutUvarint (List.replicate MaxVarintLen64 0) height with
  | none => none
  | some (buf, n) => some (buf.take n)

/-- The height read back from the bytes under `PosKey` at start-up:
`chainOb.LastBlock, _ = binary.Uvarint(buf)`. -/
def decodeCursor (buf : Bytes) : Nat :=
  (Uvarint buf).1

/-! ## The observe cycle -/

/-- State of the observer, effects and outcome after one call. -/
structure Run (α : Type) where
  chainOb : ChainObserver
  trace : List Event
  outcome : Outcome α

/-- The loop `for _, vLog := range logs` of `observeChain`.  Returns the
effects so far and whether the loop ran to its end (`false`: it panicked on
an index out of range). -/
def observeLogs (cfg : Config) (env : Env) (chainOb : ChainObserver) :
    List Log → List Event → List Event × Bool
  | [], tr => (tr, true)
  | vLog :: rest, tr =>
    match vLog.Topics[0]? with
    | none => (tr, false)
    | some topic0 =>
      if topic0 = cfg.logZetaSentSignatureHash then
        match cfg.unpackZetaSent vLog.Data with
        | none =>
          observeLogs cfg env chainOb rest
            (tr ++ [Event.LogErr "error unpacking ZetaMessageSendEvent"])
        | some vals =>
          match vLog.Topics[1]? with
          | none => (tr, false)
          | some sender =>
            let call : PostSendCall :=
              ⟨sender, chainOb.chain, vals.destContract,
                cfg.FindChainByID vals.destChainID, vals.zetaAmount,
                vals.zetaAmount, vals.message, vLog.TxHash, vLog.BlockNumber⟩
            match env.PostSend tr call with
            | .error _ =>
              observeLogs cfg env chainOb rest
                (tr ++ [Event.PostSend call, Event.LogErr "error posting to meta core"])
            | .ok _ =>
              observeLogs cfg env chainOb rest (tr ++ [Event.PostSend call])
      else observeLogs cfg env chainOb rest tr

/-- The method `observeChain`: one observe cycle.  The returned value is the
error of the Go function (`none` is `nil`). -/
def observeChain (cfg : Config) (env : Env) (chainOb : ChainObserver) :
    Run (Option String) :=
  match env.HeaderByNumber with
  | .error err => ⟨chainOb, [], .returned (some err)⟩
  | .ok header =>
    let confirmedBlockNum := sub64 header chainOb.confCount
    if confirmedBlockNum ≤ chainOb.LastBlock then
      ⟨chainOb, [], .returned none⟩
    else
      let toBlock0 := add64 chainOb.LastBlock cfg.MAX_BLOCKS_PER_PERIOD
      let toBlock :=
        if toBlock0 ≥ confirmedBlockNum then confirmedBlockNum else toBlock0
      let query : FilterQuery :=
        ⟨[chainOb.mpiAddress], some (add64 chainOb.LastBlock 1), some toBlock,
          [[cfg.logZetaSentSignatureHash]]⟩
      match env.FilterLogs [] query with
      | .error err => ⟨chainOb, [Event.FilterLogs query], .returned (some err)⟩
      | .ok logs =>
        match observeLogs cfg env chainOb logs [Event.FilterLogs query] with
        | (tr, false) => ⟨chainOb, tr, .panicked⟩
        | (tr, true) =>
          let advanced : ChainObserver := { chainOb with LastBlock := toBlock }
          match encodeCursor toBlock with
          | none => ⟨advanced, tr, .panicked⟩
          | some value =>
            match env.dbPut tr PosKey value with
            | some _ =>
              ⟨advanced,
                tr ++ [Event.DbPut PosKey value,
                  Event.LogErr "error writing toBlock to db"],
                .returned none⟩
            | none => ⟨advanced, tr ++ [Event.DbPut PosKey value], .returned none⟩

/-! ## The point query -/

/-- The loop `for _, vLog := range logs` of `IsSendOutTxProcessed`.  The
returned value is `(isIncluded, isConfirmed, err)`. -/
def sendOutLogs (cfg : Config) (env : Env) (chainOb : ChainObserver) :
    List Log → List Event → List Event × Outcome (Bool × Bool × Option String)
  | [], tr =>
    (tr, .returned (false, false,
      some ("IsSendOutTxProcessed: unknown chain " ++ chainOb.chain)))
  | vLog :: rest, tr =>
    match vLog.Topics[0]? with
    | none => (tr, .panicked)
    | some topic0 =>
      if topic0 = cfg.logZetaReceivedSignatureHash then
        match cfg.unpackZetaReceived vLog.Data with
        | none => sendOutLogs cfg env chainOb rest tr
        | some retval =>
          match vLog.Topics[1]?, vLog.Topics[2]?, vLog.Topics[3]? with
          | some _, some _, some topic3 =>
            if add64 vLog.BlockNumber cfg.ETH_CONFIRMATION_COUNT < chainOb.LastBlock then
              let call : PostReceiveCall :=
                ⟨topic3, vLog.TxHash, vLog.BlockNumber, retval.zetaAmount,
                  ReceiveStatus.Success, chainOb.chain⟩
              match env.PostReceiveConfirmation tr call with
              | .error _ =>
                sendOutLogs cfg env chainOb rest
                  (tr ++ [Event.PostReceiveConfirmation call,
                    Event.LogErr "error posting confirmation to meta core"])
              | .ok _ =>
                (tr ++ [Event.PostReceiveConfirmation call],
                  .returned (true, true, none))
            else (tr, .returned (true, false, none))
          | _, _, _ => (tr, .panicked)
      else sendOutLogs cfg env chainOb rest tr

/-- The method `IsSendOutTxProcessed(sendHash)`. -/
def IsSendOutTxProcessed (cfg : Config) (env : Env) (chainOb : ChainObserver)
    (sendHash : Hash) : Run (Bool × Bool × Option String) :=
  let query : FilterQuery :=
    ⟨[cfg.MPIContractAddress chainOb.chain], some 0, none,
      [[cfg.logZetaReceivedSignatureHash], [], [], [sendHash]]⟩
  match env.FilterLogs [] query with
  | .error err =>
    ⟨chainOb, [Event.FilterLogs query],
      .returned (false, false,
        some ("IsSendOutTxProcessed: Client FilterLog fail " ++ err))⟩
  | .ok logs =>
    if logs.length = 0 then
      ⟨chainOb, [Event.FilterLogs query], .returned (false, false, none)⟩
    else if logs.length > 1 then
      ⟨chainOb, [Event.FilterLogs query], .exited⟩
    else
      let res := sendOutLogs cfg env chainOb logs [Event.FilterLogs query]
      ⟨chainOb, res.1, res.2⟩

/-! ## Reading a trace -/

/-- The `PostSend` calls of a trace, in order. -/
def postSendCalls : List Event → List PostSendCall
  | [] => []
  | Event.PostSend call :: rest => call :: postSendCalls rest
  | _ :: rest => postSendCalls rest

/-- The `PostReceiveConfirmation` calls of a trace, in order. -/
def postReceiveCalls : List Event → List PostReceiveCall
  | [] => []
  | Event.PostReceiveConfirmation call :: rest => call :: postReceiveCalls rest
  | _ :: rest => postReceiveCalls rest

/-- The store writes of a trace, in order. -/
def dbPuts : List Event → List (String × Bytes)
  | [] => []
  | Event.DbPut key value :: rest => (key, value) :: dbPuts rest
  | _ :: rest => dbPuts rest

/-- The log filter queries of a trace, in order. -/
def filterQueries : List Event → List FilterQuery
  | [] => []
  | Event.FilterLogs query :: rest => query :: filterQueries rest
  | _ :: rest => filterQueries rest

/-- Block range asked of the first log filter of a trace. -/
def queriedWindow (tr : List Event) : Option (Nat × Nat) :=
  match filterQueries tr with
  | [] => none
  | query :: _ =>
    match query.FromBlock, query.ToBlock with
    | some fromBlock, some toBlock => some (fromBlock, toBlock)
    | _, _ => none

/-- A block range read over the integers. -/
def windowToInt (w : Nat × Nat) : Int × Int := ((w.1 : Int), (w.2 : Int))

/-! ## The window in the words of the specification -/

/-- The window of an observe cycle as the specification words it, over the
integers: `confirmed = H - C`; no window when `confirmed ≤ L`; otherwise
`from = L + 1` and `to = min (L + W) confirmed`. -/
def specWindow (H C W L : Nat) : Option (Int × Int) :=
  let confirmed : Int := (H : Int) - (C : Int)
  if confirmed ≤ (L : Int) then none
  else some ((L : Int) + 1, min ((L : Int) + (W : Int)) confirmed)

/-! ## Concrete observers and worlds -/

/-- A configuration with window size `W` and Ethereum confirmation count
`ethConf`; `ZetaSent` has hash `77`, `ZetaReceived` has hash `88`, and the
only data that decodes is the single byte `1`. -/
def demoConfig (W ethConf : Nat) : Config :=
  ⟨W, ethConf, fun _ => "0xmpi", fun _ => "POLYGON", 77, 88,
    fun data => if data = [1] then some ⟨137, [2], 1000, 5, [3], []⟩ else none,
    fun data => if data = [1] then some ⟨[9], 1000, []⟩ else none⟩

/-- A world with head height `H` whose log filter answers `logs`; posts
succeed when `postOk`, the store write succeeds when `putOk`. -/
def demoEnv (H : Nat) (logs : List Log) (postOk putOk : Bool) : Env :=
  ⟨.ok H, fun _ _ => .ok logs,
    fun _ _ => if postOk then .ok "metahash" else .error "post failed",
    fun _ _ => if postOk then .ok "metahash" else .error "post failed",
    fun _ _ _ => if putOk then none else some "write failed"⟩

/-- An observer of chain `ETH` with cursor `L` and confirmation depth `C`. -/
def demoObserver (L C : Nat) : ChainObserver :=
  ⟨"ETH", "0xmpi", L, C⟩

/-- The upper block of the window of a cycle that read head height `header`:
the value of `toBlock` after the clamp to `confirmedBlockNum`. -/
def cycleToBlock (cfg : Config) (chainOb : ChainObserver) (header : Nat) : Nat :=
  if add64 chainOb.LastBlock cfg.MAX_BLOCKS_PER_PERIOD ≥ sub64 header chainOb.confCount then
    sub64 header chainOb.confCount
  else add64 chainOb.LastBlock cfg.MAX_BLOCKS_PER_PERIOD

/-- The log filter query of a cycle that read head height `header`. -/
def cycleQuery (cfg : Config) (chainOb : ChainObserver) (header : Nat) : FilterQuery :=
  ⟨[chainOb.mpiAddress], some (add64 chainOb.LastBlock 1),
    some (cycleToBlock cfg chainOb header), [[cfg.logZetaSentSignatureHash]]⟩

/-- The log filter query of `IsSendOutTxProcessed(sendHash)`. -/
def sendOutQuery (cfg : Config) (chainOb : ChainObserver) (sendHash : Hash) : FilterQuery :=
  ⟨[cfg.MPIContractAddress chainOb.chain], some 0, none,
    [[cfg.logZetaReceivedSignatureHash], [], [], [sendHash]]⟩

/-- The answer `(included, confirmed)` of the point query in the words of the
specification, for one log at block `B`, depth `C` and cursor `lastScanned`,
over the integers. -/
def specSendProcessed (B C lastScanned : Nat) : Bool × Bool :=
  if B + C ≤ lastScanned then (true, true) else (true, false)

/-- The indices that the log loop of `observeChain` reads on this log exist:
`Topics[0]` always, and `Topics[1]` when `Topics[0]` is the `ZetaSent` hash
and the data decodes. -/
def sentLogIndexable (cfg : Config) (vLog : Log) : Bool :=
  match vLog.Topics[0]? with
  | none => false
  | some topic0 =>
    if topic0 = cfg.logZetaSentSignatureHash then
      match cfg.unpackZetaSent vLog.Data with
      | none => true
      | some _ => (vLog.Topics[1]?).isSome
    else true

/-- The `PostSend` call that the specification expects for a log: one call
when `Topics[0]` is the `ZetaSent` hash and the data decodes, carrying the
transaction hash and block number of the log; none otherwise. -/
def sendOfLog (cfg : Config) (chainOb : ChainObserver) (vLog : Log) : Option PostSendCall :=
  if vLog.Topics[0]? = some cfg.logZetaSentSignatureHash then
    match cfg.unpackZetaSent vLog.Data with
    | none => none
    | some vals =>
      some ⟨vLog.Topics.getD 1 0, chainOb.chain, vals.destContract,
        cfg.FindChainByID vals.destChainID, vals.zetaAmount, vals.zetaAmount,
        vals.message, vLog.TxHash, vLog.BlockNumber⟩
  else none

end ZetaClient

/-! # Header trace verifier of `smoketests/test_block_headers.go`

The closure `checkBlock` of `TestBlockHeaders`.  It reports failure by
`panic`; it succeeds when it reaches its last line.

* Heights are Go `int64` values (the generated types of `x/observer/types`
  and `common` declare them so); they are integers here and `Height - 1` is
  written with `wrapInt64`.
* The coordinator is an `ObserverClient`: the header state query, with its
  two `nil` cases, and the header store, a function of the block hash whose
  successful answer carries the header.
* The loop `for { ... }` stops only on a failed query; it is run with a
  bound on the number of queries, and a run that needs more is `none`.
-/

namespace Smoketests

/-- Reduction of an integer to the range of a Go `int64`. -/
def wrapInt64 (x : Int) : Int := (x + 2 ^ 63) % 2 ^ 64 - 2 ^ 63

/-- The fields of `BlockHeaderState` that `checkBlock` reads. -/
structure BlockHeaderState where
  EarliestHeight : Int
  LatestHeight : Int
  LatestBlockHash : List Nat
deriving DecidableEq

/-- The fields of `BlockHeader` that `checkBlock` reads. -/
structure BlockHeader where
  Height : Int
  ParentHash : List Nat
deriving DecidableEq

/-- The two queries of `sm.ObserverClient` that `checkBlock` calls.  In the
answer of the state query the outer `none` is a `nil` response and the inner
`none` a `nil` field `BlockHeaderState`. -/
structure ObserverClient where
  GetBlockHeaderStateByChain : Int → Except String (Option (Option BlockHeaderState))
  GetBlockHeaderByHash : List Nat → Except String BlockHeader

/-- How `checkBlock` ends: it reaches its last line, or it panics; the panic
of the final comparison carries the two numbers of its message. -/
inductive CheckResult where
  | succeeded
  | panicked (msg : String)
  | tracingFailed (expected got : Int)
deriving DecidableEq

/-- The hashes asked of `GetBlockHeaderByHash`, in order, and the end of the
call. -/
structure CheckRun where
  calls : List (List Nat)
  result : CheckResult
deriving DecidableEq

/-- The loop `for { ... }` of `checkBlock` with at most `fuel` queries, from
the values `bn` and `currentHash`; `calls` lists the hashes asked before.
The result is the value of `bn` at the `break` and the hashes asked. -/
def traceBack (client : ObserverClient) :
    Nat → Int → List Nat → List (List Nat) → Option (Int × List (List Nat))
  | 0, _, _, _ => none
  | fuel + 1, bn, currentHash, calls =>
    match client.GetBlockHeaderByHash currentHash with
    | .error _ => some (bn, calls ++ [currentHash])
    | .ok header =>
      traceBack client fuel (wrapInt64 (header.Height - 1)) header.ParentHash
        (calls ++ [currentHash])

/-- The closure `checkBlock(chainID)` with at most `fuel` header queries. -/
def checkBlock (client : ObserverClient) (fuel : Nat) (chainID : Int) : Option CheckRun :=
  match client.GetBlockHeaderStateByChain chainID with
  | .error err => some ⟨[], .panicked err⟩
  | .ok none => some ⟨[], .panicked "no block header state"⟩
  | .ok (some none) => some ⟨[], .panicked "no block header state"⟩
  | .ok (some (some state)) =>
    let earliestBlock := state.EarliestHeight
    let latestBlock := state.LatestHeight
    if earliestBlock = 0 ∨ latestBlock = earliestBlock then
      some ⟨[], .panicked "no blocks"⟩
    else
      match traceBack client fuel latestBlock state.LatestBlockHash [] with
      | none => none
      | some (bn, calls) =>
        if bn > earliestBlock then some ⟨calls, .tracingFailed earliestBlock bn⟩
        else some ⟨calls, .succeeded⟩

/-! ## The walk in the words of the specification -/

/-- The headers `headers` are what the parent-hash walk from `hash`
retrieves, in order, and the query after the last of them fails. -/
def walkStops (client : ObserverClient) : List Nat → List BlockHeader → Bool
  | hash, [] =>
    match client.GetBlockHeaderByHash hash with
    | .error _ => true
    | .ok _ => false
  | hash, header :: rest =>
    match client.GetBlockHeaderByHash hash with
    | .error _ => false
    | .ok found => decide (found = header) && walkStops client header.ParentHash rest

/-- The height `n` of the claim: the height of the last header retrieved,
`latest` when none was retrieved. -/
def lastRetrievedHeight (latest : Int) (headers : List BlockHeader) : Int :=
  match headers.getLast? with
  | none => latest
  | some header => header.Height

/-- The value of `bn` when tracing stops: one less than the height of the
last header retrieved, in `int64`; `latest` when none was retrieved. -/
def stopHeight (latest : Int) (headers : List BlockHeader) : Int :=
  match headers.getLast? with
  | none => latest
  | some header => wrapInt64 (header.Height - 1)

/-! ## Concrete coordinators -/

/-- A coordinator whose state for every chain is
`(earliest, latest, [latest])` and whose store holds, under the hash `[h]`,
the header of height `h` with parent `[h - 1]`, for `lowest ≤ h ≤ latest`. -/
def demoClient (earliest latest lowest : Nat) : ObserverClient :=
  ⟨fun _ => .ok (some (some ⟨(earliest : Int), (latest : Int), [latest]⟩)),
    fun hash =>
      match hash with
      | [h] =>
        if lowest ≤ h ∧ h ≤ latest then .ok ⟨(h : Int), [h - 1]⟩
        else .error "not found"
      | _ => .error "not found"⟩

/-- The headers of heights `latest` down to `lowest` in the store of
`demoClient`, in the order of the walk. -/
def demoHeaders (latest lowest : Nat) : List BlockHeader :=
  ((List.range' lowest (latest + 1 - lowest)).reverse).map
    (fun (h : Nat) => ⟨(h : Int), [h - 1]⟩)

end Smoketests

namespace ZetaClient

/-! # Theorems -/

/-! ## Machine arithmetic -/

theorem u64_eq : u64 = 18446744073709551616 := by
  unfold u64; norm_num

theorem add64_le (a b : Nat) : add64 a b ≤ a + b := by
  unfold add64; exact Nat.mod_le _ _

theorem add64_lt (a b : Nat) : add64 a b < u64 := by
  unfold add64; exact Nat.mod_lt _ (by rw [u64_eq]; norm_num)

theorem add64_of_lt (a b : Nat) (h : a + b < u64) : add64 a b = a + b := by
  unfold add64; exact Nat.mod_eq_of_lt h

theorem sub64_lt (a b : Nat) : sub64 a b < u64 := by
  unfold sub64; exact Nat.mod_lt _ (by rw [u64_eq]; norm_num)

theorem sub64_of_le (a b : Nat) (ha : a < u64) (hb : b ≤ a) : sub64 a b = a - b := by
  unfold sub64
  have hb64 : b < u64 := lt_of_le_of_lt hb ha
  rw [Nat.mod_eq_of_lt ha, Nat.mod_eq_of_lt hb64]
  have h1 : a + (u64 - b) = (a - b) + u64 := by omega
  rw [h1, Nat.add_mod_right]
  exact Nat.mod_eq_of_lt (by omega)

/-! ## Traces of the log loop -/

theorem filterQueries_append (xs ys : List Event) :
    filterQueries (xs ++ ys) = filterQueries xs ++ filterQueries ys := by
  induction xs with
  | nil => rfl
  | cons e rest ih => cases e <;> simp [filterQueries, ih]

theorem dbPuts_append (xs ys : List Event) :
    dbPuts (xs ++ ys) = dbPuts xs ++ dbPuts ys := by
  induction xs with
  | nil => rfl
  | cons e rest ih => cases e <;> simp [dbPuts, ih]

theorem postSendCalls_append (xs ys : List Event) :
    postSendCalls (xs ++ ys) = postSendCalls xs ++ postSendCalls ys := by
  induction xs with
  | nil => rfl
  | cons e rest ih => cases e <;> simp [postSendCalls, ih]

theorem postReceiveCalls_append (xs ys : List Event) :
    postReceiveCalls (xs ++ ys) = postReceiveCalls xs ++ postReceiveCalls ys := by
  induction xs with
  | nil => rfl
  | cons e rest ih => cases e <;> simp [postReceiveCalls, ih]

theorem observeLogs_filterQueries (cfg : Config) (env : Env) (chainOb : ChainObserver)
    (logs : List Log) (tr : List Event) :
    filterQueries (observeLogs cfg env chainOb logs tr).1 = filterQueries tr := by
  induction logs generalizing tr with
  | nil => rfl
  | cons vLog rest ih =>
    unfold observeLogs
    split
    · rfl
    · split
      · split
        · rw [ih, filterQueries_append]; simp [filterQueries]
        · split
          · rfl
          · dsimp only
            split
            · rw [ih, filterQueries_append]; simp [filterQueries]
            · rw [ih, filterQueries_append]; simp [filterQueries]
      · exact ih tr

theorem observeLogs_dbPuts (cfg : Config) (env : Env) (chainOb : ChainObserver)
    (logs : List Log) (tr : List Event) :
    dbPuts (observeLogs cfg env chainOb logs tr).1 = dbPuts tr := by
  induction logs generalizing tr with
  | nil => rfl
  | cons vLog rest ih =>
    unfold observeLogs
    split
    · rfl
    · split
      · split
        · rw [ih, dbPuts_append]; simp [dbPuts]
        · split
          · rfl
          · dsimp only
            split
            · rw [ih, dbPuts_append]; simp [dbPuts]
            · rw [ih, dbPuts_append]; simp [dbPuts]
      · exact ih tr


/-! ## Shape of one observe cycle -/

theorem observeChain_head_error (cfg : Config) (env : Env) (chainOb : ChainObserver)
    (err : String) (hH : env.HeaderByNumber = .error err) :
    observeChain cfg env chainOb = ⟨chainOb, [], .returned (some err)⟩ := by
  unfold observeChain; rw [hH]

theorem observeChain_idle (cfg : Config) (env : Env) (chainOb : ChainObserver)
    (header : Nat) (hH : env.HeaderByNumber = .ok header)
    (hle : sub64 header chainOb.confCount ≤ chainOb.LastBlock) :
    observeChain cfg env chainOb = ⟨chainOb, [], .returned none⟩ := by
  unfold observeChain; rw [hH]; simp only [hle, if_true]

theorem observeChain_filter_error (cfg : Config) (env : Env) (chainOb : ChainObserver)
    (header : Nat) (err : String) (hH : env.HeaderByNumber = .ok header)
    (hgt : ¬ sub64 header chainOb.confCount ≤ chainOb.LastBlock)
    (hF : env.FilterLogs [] (cycleQuery cfg chainOb header) = .error err) :
    observeChain cfg env chainOb =
      ⟨chainOb, [Event.FilterLogs (cycleQuery cfg chainOb header)], .returned (some err)⟩ := by
  unfold observeChain; rw [hH]
  simp only [hgt, if_false]
  unfold cycleQuery cycleToBlock at hF
  rw [hF]
  rfl

theorem observeChain_filter_ok (cfg : Config) (env : Env) (chainOb : ChainObserver)
    (header : Nat) (logs : List Log) (hH : env.HeaderByNumber = .ok header)
    (hgt : ¬ sub64 header chainOb.confCount ≤ chainOb.LastBlock)
    (hF : env.FilterLogs [] (cycleQuery cfg chainOb header) = .ok logs) :
    observeChain cfg env chainOb =
      match observeLogs cfg env chainOb logs
          [Event.FilterLogs (cycleQuery cfg chainOb header)] with
      | (tr, false) => ⟨chainOb, tr, .panicked⟩
      | (tr, true) =>
        match encodeCursor (cycleToBlock cfg chainOb header) with
        | none =>
          ⟨{ chainOb with LastBlock := cycleToBlock cfg chainOb header }, tr, .panicked⟩
        | some value =>
          match env.dbPut tr PosKey value with
          | some _ =>
            ⟨{ chainOb with LastBlock := cycleToBlock cfg chainOb header },
              tr ++ [Event.DbPut PosKey value, Event.LogErr "error writing toBlock to db"],
              .returned none⟩
          | none =>
            ⟨{ chainOb with LastBlock := cycleToBlock cfg chainOb header },
              tr ++ [Event.DbPut PosKey value], .returned none⟩ := by
  unfold observeChain; rw [hH]
  simp only [hgt, if_false]
  unfold cycleQuery cycleToBlock at hF
  rw [hF]
  rfl

/-- Whatever the world answers, the cursor after a cycle is the old cursor or
the upper block of the window. -/
theorem observeChain_lastBlock (cfg : Config) (env : Env) (chainOb : ChainObserver) :
    (observeChain cfg env chainOb).chainOb.LastBlock = chainOb.LastBlock ∨
    ∃ header, env.HeaderByNumber = .ok header ∧
      ¬ sub64 header chainOb.confCount ≤ chainOb.LastBlock ∧
      (observeChain cfg env chainOb).chainOb.LastBlock = cycleToBlock cfg chainOb header := by
  cases hH : env.HeaderByNumber with
  | error err => left; rw [observeChain_head_error cfg env chainOb err hH]
  | ok header =>
    by_cases hle : sub64 header chainOb.confCount ≤ chainOb.LastBlock
    · left; rw [observeChain_idle cfg env chainOb header hH hle]
    · cases hF : env.FilterLogs [] (cycleQuery cfg chainOb header) with
      | error err => left; rw [observeChain_filter_error cfg env chainOb header err hH hle hF]
      | ok logs =>
        rw [observeChain_filter_ok cfg env chainOb header logs hH hle hF]
        split
        · left; rfl
        · right
          refine ⟨header, rfl, hle, ?_⟩
          split
          · rfl
          · split <;> rfl

/-- A cycle that finds confirmed blocks beyond the cursor issues exactly one
log filter query, the one of its window. -/
theorem observeChain_filterQueries_active (cfg : Config) (env : Env)
    (chainOb : ChainObserver) (header : Nat) (hH : env.HeaderByNumber = .ok header)
    (hgt : ¬ sub64 header chainOb.confCount ≤ chainOb.LastBlock) :
    filterQueries (observeChain cfg env chainOb).trace = [cycleQuery cfg chainOb header] := by
  cases hF : env.FilterLogs [] (cycleQuery cfg chainOb header) with
  | error err =>
    rw [observeChain_filter_error cfg env chainOb header err hH hgt hF]; rfl
  | ok logs =>
    rw [observeChain_filter_ok cfg env chainOb header logs hH hgt hF]
    have hq := observeLogs_filterQueries cfg env chainOb logs
      [Event.FilterLogs (cycleQuery cfg chainOb header)]
    split
    · next tr heq => rw [heq] at hq; exact hq
    · next tr heq =>
      rw [heq] at hq
      have hq2 : filterQueries tr = [cycleQuery cfg chainOb header] := hq
      split
      · exact hq2
      · split
        · simp [filterQueries_append, hq2, filterQueries]
        · simp [filterQueries_append, hq2, filterQueries]

/-- The log filter queries of a cycle: none when the head read fails or
nothing is confirmed beyond the cursor, otherwise the one query of the
window. -/
theorem observeChain_filterQueries (cfg : Config) (env : Env) (chainOb : ChainObserver) :
    filterQueries (observeChain cfg env chainOb).trace = [] ∨
    ∃ header, env.HeaderByNumber = .ok header ∧
      ¬ sub64 header chainOb.confCount ≤ chainOb.LastBlock ∧
      filterQueries (observeChain cfg env chainOb).trace = [cycleQuery cfg chainOb header] := by
  cases hH : env.HeaderByNumber with
  | error err => left; rw [observeChain_head_error cfg env chainOb err hH]; rfl
  | ok header =>
    by_cases hle : sub64 header chainOb.confCount ≤ chainOb.LastBlock
    · left; rw [observeChain_idle cfg env chainOb header hH hle]; rfl
    · right
      exact ⟨header, rfl, hle, observeChain_filterQueries_active cfg env chainOb header hH hle⟩

/-! ## The window of a cycle -/

theorem specWindow_none_iff (H C W L : Nat) :
    specWindow H C W L = none ↔ (H : Int) - (C : Int) ≤ (L : Int) := by
  unfold specWindow
  by_cases h : (H : Int) - (C : Int) ≤ (L : Int) <;> simp [h]

theorem cycleToBlock_le_window (cfg : Config) (chainOb : ChainObserver) (header : Nat) :
    cycleToBlock cfg chainOb header ≤ chainOb.LastBlock + cfg.MAX_BLOCKS_PER_PERIOD := by
  unfold cycleToBlock
  have h := add64_le chainOb.LastBlock cfg.MAX_BLOCKS_PER_PERIOD
  split <;> omega

theorem cycleToBlock_le_confirmed (cfg : Config) (chainOb : ChainObserver) (header : Nat) :
    cycleToBlock cfg chainOb header ≤ sub64 header chainOb.confCount := by
  unfold cycleToBlock
  split <;> omega

theorem cycleToBlock_lt (cfg : Config) (chainOb : ChainObserver) (header : Nat) :
    cycleToBlock cfg chainOb header < u64 :=
  lt_of_le_of_lt (cycleToBlock_le_confirmed cfg chainOb header) (sub64_lt _ _)

theorem cycle_from (chainOb : ChainObserver) (header : Nat)
    (hgt : ¬ sub64 header chainOb.confCount ≤ chainOb.LastBlock) :
    add64 chainOb.LastBlock 1 = chainOb.LastBlock + 1 := by
  have h := sub64_lt header chainOb.confCount
  exact add64_of_lt _ _ (by omega)

/-- C1, as amended: when the confirmation depth does not exceed the head
height and `L + W` fits in 64 bits, the cycle asks for exactly the window of
the specification, `from = L + 1` and `to = min (L + W) (H - C)`, and does
nothing at all when `H - C ≤ L`. -/
theorem observeChain_window_spec (cfg : Config) (env : Env) (chainOb : ChainObserver)
    (H : Nat) (hH : env.HeaderByNumber = .ok H) (hH64 : H < u64)
    (hC : chainOb.confCount ≤ H)
    (hW : chainOb.LastBlock + cfg.MAX_BLOCKS_PER_PERIOD < u64) :
    (queriedWindow (observeChain cfg env chainOb).trace).map windowToInt =
        specWindow H chainOb.confCount cfg.MAX_BLOCKS_PER_PERIOD chainOb.LastBlock ∧
    (specWindow H chainOb.confCount cfg.MAX_BLOCKS_PER_PERIOD chainOb.LastBlock = none →
      (observeChain cfg env chainOb).trace = [] ∧
      (observeChain cfg env chainOb).chainOb = chainOb ∧
      (observeChain cfg env chainOb).outcome = .returned none) := by
  have hsub : sub64 H chainOb.confCount = H - chainOb.confCount := sub64_of_le H _ hH64 hC
  by_cases hle : sub64 H chainOb.confCount ≤ chainOb.LastBlock
  · have hspec : specWindow H chainOb.confCount cfg.MAX_BLOCKS_PER_PERIOD chainOb.LastBlock
        = none := by
      rw [specWindow_none_iff]; omega
    rw [observeChain_idle cfg env chainOb H hH hle, hspec]
    exact ⟨rfl, fun _ => ⟨rfl, rfl, rfl⟩⟩
  · have hnot : ¬ ((H : Int) - (chainOb.confCount : Int) ≤ (chainOb.LastBlock : Int)) := by
      omega
    constructor
    · have hq := observeChain_filterQueries_active cfg env chainOb H hH hle
      have hcast : ((H - chainOb.confCount : Nat) : Int) = (H : Int) - (chainOb.confCount : Int) :=
        Int.ofNat_sub hC
      have hto : ((cycleToBlock cfg chainOb H : Nat) : Int) =
          min ((chainOb.LastBlock : Int) + (cfg.MAX_BLOCKS_PER_PERIOD : Int))
            ((H : Int) - (chainOb.confCount : Int)) := by
        unfold cycleToBlock
        rw [hsub, add64_of_lt _ _ hW]
        split
        · next hge =>
          rw [hcast, min_eq_right]
          rw [← hcast]
          have : ((H - chainOb.confCount : Nat) : Int) ≤
              ((chainOb.LastBlock + cfg.MAX_BLOCKS_PER_PERIOD : Nat) : Int) :=
            Int.ofNat_le.mpr hge
          simpa using this
        · next hlt =>
          rw [min_eq_left]
          · push_cast; rfl
          · rw [← hcast]
            have : ((chainOb.LastBlock + cfg.MAX_BLOCKS_PER_PERIOD : Nat) : Int) ≤
                ((H - chainOb.confCount : Nat) : Int) :=
              Int.ofNat_le.mpr (by omega)
            simpa using this
      unfold queriedWindow
      rw [hq]
      unfold specWindow
      simp only [hnot, if_false]
      simp only [cycleQuery, Option.map, windowToInt]
      rw [cycle_from chainOb H hle, hto]
      push_cast
      rfl
    · intro hnone
      rw [specWindow_none_iff] at hnone
      exact absurd hnone hnot

/-- C1, witness: the scenario of the specification, cursor 900, head 950,
depth 6, window 10, asks for blocks 901 to 910. -/
theorem observeChain_window_spec_witness :
    ((demoEnv 950 [] true true).HeaderByNumber = .ok 950 ∧ 950 < u64 ∧
      (demoObserver 900 6).confCount ≤ 950 ∧
      (demoObserver 900 6).LastBlock + (demoConfig 10 12).MAX_BLOCKS_PER_PERIOD < u64) ∧
    (queriedWindow
        (observeChain (demoConfig 10 12) (demoEnv 950 [] true true)
          (demoObserver 900 6)).trace).map windowToInt = some (901, 910) :=
  ⟨⟨rfl, by decide, by decide, by decide⟩,
    (observeChain_window_spec (demoConfig 10 12) (demoEnv 950 [] true true)
      (demoObserver 900 6) 950 rfl (by decide) (by decide) (by decide)).1.trans
      (by decide)⟩

/-- C1, counterexample: with cursor `2 ^ 64 - 5`, window 10, head
`2 ^ 64 - 1` and depth 0 the sum `L + W` wraps around; the cycle asks for the
blocks from `2 ^ 64 - 4` to `5`, while the specification names
`to = min (L + W) (H - C) = 2 ^ 64 - 1`. -/
theorem observeChain_window_wraps :
    queriedWindow
        (observeChain (demoConfig 10 12) (demoEnv 18446744073709551615 [] true true)
          (demoObserver 18446744073709551611 0)).trace
      = some (18446744073709551612, 5) ∧
    specWindow 18446744073709551615 0 10 18446744073709551611
      = some (18446744073709551612, 18446744073709551615) ∧
    (queriedWindow
        (observeChain (demoConfig 10 12) (demoEnv 18446744073709551615 [] true true)
          (demoObserver 18446744073709551611 0)).trace).map windowToInt
      ≠ specWindow 18446744073709551615 0 10 18446744073709551611 := by
  decide

/-- C2, the code at the failing input: head 3, depth 6, cursor 0, window 10.
`H - C` is negative, so the specification asks for no window; the unsigned
subtraction wraps, the cycle asks for blocks 1 to 10, forwards the log of
block 2 and moves the cursor to 10, beyond the head. -/
theorem observeChain_head_below_depth :
    specWindow 3 6 10 0 = none ∧
    queriedWindow
        (observeChain (demoConfig 10 12) (demoEnv 3 [⟨[77, 4], [1], 33, 2⟩] true true)
          (demoObserver 0 6)).trace = some (1, 10) ∧
    (postSendCalls
        (observeChain (demoConfig 10 12) (demoEnv 3 [⟨[77, 4], [1], 33, 2⟩] true true)
          (demoObserver 0 6)).trace).map (fun call => call.inBlockHeight) = [2] ∧
    (observeChain (demoConfig 10 12) (demoEnv 3 [⟨[77, 4], [1], 33, 2⟩] true true)
        (demoObserver 0 6)).chainOb.LastBlock = 10 := by
  decide

/-- C3, as amended: when `L + W` fits in 64 bits, the cursor after a cycle is
at least the cursor before it, whatever the head read, the log filter, the
posts and the store write answer. -/
theorem observeChain_cursor_monotone (cfg : Config) (env : Env) (chainOb : ChainObserver)
    (hW : chainOb.LastBlock + cfg.MAX_BLOCKS_PER_PERIOD < u64) :
    chainOb.LastBlock ≤ (observeChain cfg env chainOb).chainOb.LastBlock := by
  rcases observeChain_lastBlock cfg env chainOb with h | ⟨header, _, hgt, h⟩
  · rw [h]
  · rw [h]
    unfold cycleToBlock
    rw [add64_of_lt _ _ hW]
    split <;> omega

/-- C3, witness: cursor 900, head 950, depth 6, window 10. -/
theorem observeChain_cursor_monotone_witness :
    (demoObserver 900 6).LastBlock + (demoConfig 10 12).MAX_BLOCKS_PER_PERIOD < u64 ∧
    (demoObserver 900 6).LastBlock ≤
      (observeChain (demoConfig 10 12) (demoEnv 950 [] true true)
        (demoObserver 900 6)).chainOb.LastBlock :=
  ⟨by decide,
    observeChain_cursor_monotone (demoConfig 10 12) (demoEnv 950 [] true true)
      (demoObserver 900 6) (by decide)⟩

/-- C3, counterexample: 64-bit values for which the cycle returns without
error, the store write succeeds, and the cursor falls from
`18446744073709551000` to `384`. -/
theorem observeChain_cursor_falls :
    18446744073709551000 < u64 ∧ 18446744073709551615 < u64 ∧
    (observeChain (demoConfig 1000 12) (demoEnv 18446744073709551615 [] true true)
        (demoObserver 18446744073709551000 6)).outcome = .returned none ∧
    (observeChain (demoConfig 1000 12) (demoEnv 18446744073709551615 [] true true)
        (demoObserver 18446744073709551000 6)).chainOb.LastBlock = 384 ∧
    ¬ ((demoObserver 18446744073709551000 6).LastBlock ≤
      (observeChain (demoConfig 1000 12) (demoEnv 18446744073709551615 [] true true)
        (demoObserver 18446744073709551000 6)).chainOb.LastBlock) := by
  decide

/-- C4: every log filter query of a cycle starts at `LastBlock + 1` and spans
at most `MAX_BLOCKS_PER_PERIOD` blocks: `to - from + 1 ≤ W` over the
integers, for every head height, depth and cursor. -/
theorem observeChain_window_bound (cfg : Config) (env : Env) (chainOb : ChainObserver)
    (query : FilterQuery) (fromBlock toBlock : Nat)
    (hq : query ∈ filterQueries (observeChain cfg env chainOb).trace)
    (hfrom : query.FromBlock = some fromBlock) (hto : query.ToBlock = some toBlock) :
    fromBlock = chainOb.LastBlock + 1 ∧
    (toBlock : Int) - (fromBlock : Int) + 1 ≤ (cfg.MAX_BLOCKS_PER_PERIOD : Int) := by
  rcases observeChain_filterQueries cfg env chainOb with h | ⟨header, _, hgt, h⟩
  · rw [h] at hq; simp at hq
  · rw [h] at hq
    have hqe : query = cycleQuery cfg chainOb header := by simpa using hq
    subst hqe
    simp only [cycleQuery, Option.some.injEq] at hfrom hto
    rw [cycle_from chainOb header hgt] at hfrom
    have hle := cycleToBlock_le_window cfg chainOb header
    subst hfrom hto
    constructor
    · rfl
    · push_cast; omega

/-- C4, witness: cursor 900, head 950, depth 6, window 10: blocks 901 to
910. -/
theorem observeChain_window_bound_witness :
    ((⟨["0xmpi"], some 901, some 910, [[77]]⟩ : FilterQuery) ∈
        filterQueries (observeChain (demoConfig 10 12) (demoEnv 950 [] true true)
          (demoObserver 900 6)).trace ∧
      (⟨["0xmpi"], some 901, some 910, [[77]]⟩ : FilterQuery).FromBlock = some 901 ∧
      (⟨["0xmpi"], some 901, some 910, [[77]]⟩ : FilterQuery).ToBlock = some 910) ∧
    (901 = (demoObserver 900 6).LastBlock + 1 ∧
      ((910 : Nat) : Int) - ((901 : Nat) : Int) + 1 ≤
        ((demoConfig 10 12).MAX_BLOCKS_PER_PERIOD : Int)) :=
  ⟨⟨by decide, rfl, rfl⟩,
    observeChain_window_bound (demoConfig 10 12) (demoEnv 950 [] true true)
      (demoObserver 900 6) ⟨["0xmpi"], some 901, some 910, [[77]]⟩ 901 910
      (by decide) rfl rfl⟩

/-! ## Failure of the chain RPC -/

/-- C7: when the head read fails, or the log filter call of the cycle fails,
`observeChain` returns that error, makes no `PostSend` call, leaves the
observer (and so `LastBlock`) as it was and writes nothing to the store. -/
theorem observeChain_rpc_failure (cfg : Config) (env : Env) (chainOb : ChainObserver) :
    (∀ err, env.HeaderByNumber = .error err →
      (observeChain cfg env chainOb).outcome = .returned (some err) ∧
      (observeChain cfg env chainOb).chainOb = chainOb ∧
      postSendCalls (observeChain cfg env chainOb).trace = [] ∧
      dbPuts (observeChain cfg env chainOb).trace = []) ∧
    (∀ query err, query ∈ filterQueries (observeChain cfg env chainOb).trace →
      env.FilterLogs [] query = .error err →
      (observeChain cfg env chainOb).outcome = .returned (some err) ∧
      (observeChain cfg env chainOb).chainOb = chainOb ∧
      postSendCalls (observeChain cfg env chainOb).trace = [] ∧
      dbPuts (observeChain cfg env chainOb).trace = []) := by
  constructor
  · intro err hH
    rw [observeChain_head_error cfg env chainOb err hH]
    exact ⟨rfl, rfl, rfl, rfl⟩
  · intro query err hq hF
    rcases observeChain_filterQueries cfg env chainOb with h | ⟨header, hH, hgt, h⟩
    · rw [h] at hq; simp at hq
    · rw [h] at hq
      have hqe : query = cycleQuery cfg chainOb header := by simpa using hq
      subst hqe
      rw [observeChain_filter_error cfg env chainOb header err hH hgt hF]
      exact ⟨rfl, rfl, rfl, rfl⟩

/-- C7, witness: a world whose head read fails, and a world whose log filter
fails on the window 901 to 910. -/
theorem observeChain_rpc_failure_witness :
    ((⟨.error "timeout", fun _ _ => .ok [], fun _ _ => .ok "", fun _ _ => .ok "",
        fun _ _ _ => none⟩ : Env).HeaderByNumber = .error "timeout" ∧
      (observeChain (demoConfig 10 12)
        ⟨.error "timeout", fun _ _ => .ok [], fun _ _ => .ok "", fun _ _ => .ok "",
          fun _ _ _ => none⟩ (demoObserver 900 6)).outcome = .returned (some "timeout")) ∧
    ((⟨["0xmpi"], some 901, some 910, [[77]]⟩ : FilterQuery) ∈
        filterQueries (observeChain (demoConfig 10 12)
          ⟨.ok 950, fun _ _ => .error "reset", fun _ _ => .ok "", fun _ _ => .ok "",
            fun _ _ _ => none⟩ (demoObserver 900 6)).trace ∧
      (observeChain (demoConfig 10 12)
        ⟨.ok 950, fun _ _ => .error "reset", fun _ _ => .ok "", fun _ _ => .ok "",
          fun _ _ _ => none⟩ (demoObserver 900 6)).chainOb = demoObserver 900 6) :=
  ⟨⟨rfl,
      ((observeChain_rpc_failure (demoConfig 10 12)
        ⟨.error "timeout", fun _ _ => .ok [], fun _ _ => .ok "", fun _ _ => .ok "",
          fun _ _ _ => none⟩ (demoObserver 900 6)).1 "timeout" rfl).1⟩,
    ⟨by decide,
      ((observeChain_rpc_failure (demoConfig 10 12)
        ⟨.ok 950, fun _ _ => .error "reset", fun _ _ => .ok "", fun _ _ => .ok "",
          fun _ _ _ => none⟩ (demoObserver 900 6)).2
        ⟨["0xmpi"], some 901, some 910, [[77]]⟩ "reset" (by decide) rfl).2.1⟩⟩

/-! ## Varint form of the cursor -/

theorem byte_or_and (v : Nat) (hv : v < 256) : (v ||| 128) &&& 127 = v % 128 := by
  interval_cases v <;> rfl

theorem byte_or_ge (v : Nat) (hv : v < 256) : 128 ≤ v ||| 128 := by
  interval_cases v <;> decide

theorem or_shift_eq_add (acc r s : Nat) (hacc : acc < 2 ^ s) :
    acc ||| r <<< s = acc + r * 2 ^ s := by
  rw [Nat.shiftLeft_eq, Nat.or_comm, Nat.mul_comm r, ← Nat.mul_add_lt_is_or hacc]
  omega

theorem uvarintLoop_last (b : Nat) (rest : List Nat) (acc s i : Nat) (hi : i ≠ 10)
    (hb : b < 128) (hov : ¬ (i = 9 ∧ b > 1)) :
    uvarintLoop (b :: rest) acc s i = (acc ||| (b <<< s) % u64, (i : Int) + 1) := by
  unfold uvarintLoop
  simp only [MaxVarintLen64]
  rw [if_neg hi, if_pos hb, if_neg hov]

theorem uvarintLoop_more (b : Nat) (rest : List Nat) (acc s i : Nat) (hi : i ≠ 10)
    (hb : ¬ b < 128) :
    uvarintLoop (b :: rest) acc s i =
      uvarintLoop rest (acc ||| ((b &&& 127) <<< s) % u64) (s + 7) (i + 1) := by
  conv => lhs; unfold uvarintLoop
  simp only [MaxVarintLen64]
  rw [if_neg hi, if_neg hb]

theorem pow_split (i : Nat) (hi : i ≤ 9) : 2 ^ (64 - 7 * i) * 2 ^ (7 * i) = u64 := by
  rw [← pow_add, u64]
  congr 1
  omega

/-- Writing `x` from index `i` of a buffer that reaches index 9, and reading
the written bytes back with accumulator `acc` below `2 ^ (7 i)`, gives
`acc + x * 2 ^ (7 i)`. -/
theorem putUvarintFrom_uvarintLoop (cells : List Nat) :
    ∀ (x acc i : Nat), 10 ≤ i + cells.length → i ≤ 9 → x < 2 ^ (64 - 7 * i) →
      acc < 2 ^ (7 * i) →
      ∃ written n, putUvarintFrom cells x = some (written, n) ∧ 1 ≤ n ∧ i + n ≤ 10 ∧
        uvarintLoop (written.take n) acc (7 * i) i =
          (acc + x * 2 ^ (7 * i), ((i + n : Nat) : Int)) := by
  induction cells with
  | nil => intro x acc i hlen hi _ _; simp at hlen; omega
  | cons c cells ih =>
    intro x acc i hlen hi hx hacc
    have hP : 0 < 2 ^ (7 * i) := pow_pos (by norm_num) _
    have hsplit := pow_split i hi
    unfold putUvarintFrom
    by_cases hge : x ≥ 0x80
    · rw [if_pos hge]
      have hi8 : i ≤ 8 := by
        by_contra hcon
        have hi9 : i = 9 := by omega
        subst hi9
        norm_num at hx
        omega
      have hexp : 64 - 7 * i = (64 - 7 * (i + 1)) + 7 := by omega
      have hx2 : x >>> 7 < 2 ^ (64 - 7 * (i + 1)) := by
        rw [Nat.shiftRight_eq_div_pow]
        apply Nat.div_lt_of_lt_mul
        rw [hexp, pow_add] at hx
        rw [Nat.mul_comm]
        exact hx
      have hr : x % 128 ≤ 127 := by omega
      have hacc2 : acc + (x % 128) * 2 ^ (7 * i) < 2 ^ (7 * (i + 1)) := by
        have h1 : (x % 128) * 2 ^ (7 * i) ≤ 127 * 2 ^ (7 * i) := Nat.mul_le_mul_right _ hr
        have h2 : 2 ^ (7 * (i + 1)) = 128 * 2 ^ (7 * i) := by
          rw [show 7 * (i + 1) = 7 + 7 * i by omega, pow_add]; norm_num
        omega
      obtain ⟨written, n, hput, hn1, hn10, hloop⟩ :=
        ih (x >>> 7) (acc + (x % 128) * 2 ^ (7 * i)) (i + 1)
          (by simp at hlen; omega) (by omega) hx2 hacc2
      refine ⟨(x % 256 ||| 0x80) :: written, n + 1, ?_, by omega, by omega, ?_⟩
      · rw [hput]
      · have hb256 : x % 256 < 256 := Nat.mod_lt _ (by norm_num)
        have hbge := byte_or_ge (x % 256) hb256
        rw [List.take_succ_cons,
          uvarintLoop_more _ _ _ _ _ (by omega) (by omega)]
        have hand : (x % 256 ||| 128) &&& 127 = x % 128 := by
          rw [byte_or_and _ hb256]; omega
        rw [hand]
        have hsmall : (x % 128) <<< (7 * i) < u64 := by
          rw [Nat.shiftLeft_eq]
          have h1 : (x % 128) * 2 ^ (7 * i) < 128 * 2 ^ (7 * i) :=
            Nat.mul_lt_mul_of_pos_right (by omega) hP
          have h2 : 128 * 2 ^ (7 * i) ≤ u64 := by
            rw [← hsplit, hexp, pow_add]
            have h3 : 0 < 2 ^ (64 - 7 * (i + 1)) := pow_pos (by norm_num) _
            have h4 : (2 : Nat) ^ 7 = 128 := by norm_num
            rw [h4]
            calc 128 * 2 ^ (7 * i) = 1 * 128 * 2 ^ (7 * i) := by ring
              _ ≤ 2 ^ (64 - 7 * (i + 1)) * 128 * 2 ^ (7 * i) := by
                apply Nat.mul_le_mul_right
                apply Nat.mul_le_mul_right
                exact h3
          omega
        rw [Nat.mod_eq_of_lt hsmall, or_shift_eq_add _ _ _ hacc]
        have hs : 7 * i + 7 = 7 * (i + 1) := by omega
        rw [hs, hloop]
        have hval : acc + x % 128 * 2 ^ (7 * i) + x >>> 7 * 2 ^ (7 * (i + 1)) =
            acc + x * 2 ^ (7 * i) := by
          rw [Nat.shiftRight_eq_div_pow]
          have h2 : 2 ^ (7 * (i + 1)) = 128 * 2 ^ (7 * i) := by
            rw [show 7 * (i + 1) = 7 + 7 * i by omega, pow_add]; norm_num
          have h4 : (2 : Nat) ^ 7 = 128 := by norm_num
          rw [h2, h4]
          have hdm : x = 128 * (x / 128) + x % 128 := (Nat.div_add_mod x 128).symm
          conv => rhs; rw [hdm]
          ring
        rw [hval]
        congr 1
        push_cast
        ring
    · rw [if_neg hge]
      have hlt : x < 128 := by omega
      refine ⟨(x % 256) :: cells, 1, rfl, le_refl 1, by omega, ?_⟩
      have hx256 : x % 256 = x := Nat.mod_eq_of_lt (by omega)
      have hov : ¬ (i = 9 ∧ x > 1) := by
        rintro ⟨hi9, hx1⟩
        subst hi9
        norm_num at hx
        omega
      rw [show List.take 1 (x % 256 :: cells) = [x % 256] by rfl, hx256,
        uvarintLoop_last _ _ _ _ _ (by omega) hlt hov]
      have hsmall : x <<< (7 * i) < u64 := by
        rw [Nat.shiftLeft_eq, ← hsplit]
        exact Nat.mul_lt_mul_of_pos_right hx hP
      rw [Nat.mod_eq_of_lt hsmall, or_shift_eq_add _ _ _ hacc]
      congr 1

/-- C10: for every height below `2 ^ 64`, `binary.PutUvarint` into a fresh
buffer of ten bytes writes `n` bytes with `1 ≤ n ≤ 10`, and `binary.Uvarint`
of `buf[:n]` gives the height back and reads `n` bytes; so the bytes stored
under `PosKey` decode to the stored height. -/
theorem uvarint_round_trip (h : Nat) (hh : h < u64) :
    ∃ buf n, PutUvarint (List.replicate MaxVarintLen64 0) h = some (buf, n) ∧
      1 ≤ n ∧ n ≤ 10 ∧ Uvarint (buf.take n) = (h, (n : Int)) ∧
      encodeCursor h = some (buf.take n) ∧ decodeCursor (buf.take n) = h := by
  obtain ⟨written, n, hput, hn1, hn10, hloop⟩ :=
    putUvarintFrom_uvarintLoop (List.replicate MaxVarintLen64 0) h 0 0
      (by simp [MaxVarintLen64]) (by omega) (by simpa [u64] using hh) (by norm_num)
  have hU : Uvarint (written.take n) = (h, (n : Int)) := by
    unfold Uvarint
    have := hloop
    simp only [Nat.mul_zero, pow_zero, Nat.mul_one, Nat.zero_add] at this
    exact this
  refine ⟨written, n, hput, hn1, by omega, hU, ?_, ?_⟩
  · unfold encodeCursor PutUvarint
    rw [hput]
  · unfold decodeCursor
    rw [hU]

/-- C10, witness: the height 910 is stored as the two bytes `142, 7`. -/
theorem uvarint_round_trip_witness :
    910 < u64 ∧
    ∃ buf n, PutUvarint (List.replicate MaxVarintLen64 0) 910 = some (buf, n) ∧
      1 ≤ n ∧ n ≤ 10 ∧ Uvarint (buf.take n) = (910, (n : Int)) ∧
      encodeCursor 910 = some (buf.take n) ∧ decodeCursor (buf.take n) = 910 :=
  ⟨by decide, uvarint_round_trip 910 (by decide)⟩

/-- Storing a 64-bit height never panics, and the stored bytes decode to it. -/
theorem encodeCursor_isSome (h : Nat) (hh : h < u64) :
    ∃ value, encodeCursor h = some value ∧ decodeCursor value = h := by
  obtain ⟨written, n, hput, _, _, hloop⟩ :=
    putUvarintFrom_uvarintLoop (List.replicate MaxVarintLen64 0) h 0 0
      (by simp [MaxVarintLen64]) (by omega) (by simpa [u64] using hh) (by norm_num)
  refine ⟨written.take n, ?_, ?_⟩
  · unfold encodeCursor PutUvarint
    rw [hput]
  · unfold decodeCursor Uvarint
    have := hloop
    simp only [Nat.mul_zero, pow_zero, Nat.mul_one, Nat.zero_add] at this
    rw [this]

/-! ## The log loop of the observe cycle -/

/-- On logs whose read indices exist the loop runs to its end, and its
`PostSend` calls are, in order, the expected calls of the logs. -/
theorem observeLogs_posts (cfg : Config) (env : Env) (chainOb : ChainObserver)
    (logs : List Log) :
    ∀ tr : List Event, (∀ vLog ∈ logs, sentLogIndexable cfg vLog = true) →
      (observeLogs cfg env chainOb logs tr).2 = true ∧
      postSendCalls (observeLogs cfg env chainOb logs tr).1 =
        postSendCalls tr ++ logs.filterMap (sendOfLog cfg chainOb) := by
  induction logs with
  | nil => intro tr _; simp [observeLogs]
  | cons vLog rest ih =>
    intro tr hwf
    have hrest : ∀ v ∈ rest, sentLogIndexable cfg v = true :=
      fun v hv => hwf v (List.mem_cons_of_mem _ hv)
    have hhead : sentLogIndexable cfg vLog = true := hwf vLog (List.mem_cons_self _ _)
    unfold sentLogIndexable at hhead
    unfold observeLogs
    cases h0 : vLog.Topics[0]? with
    | none => rw [h0] at hhead; simp at hhead
    | some topic0 =>
      rw [h0] at hhead
      simp only at hhead ⊢
      by_cases ht : topic0 = cfg.logZetaSentSignatureHash
      · rw [if_pos ht] at hhead ⊢
        cases hu : cfg.unpackZetaSent vLog.Data with
        | none =>
          simp only
          obtain ⟨h1, h2⟩ := ih (tr ++ [Event.LogErr "error unpacking ZetaMessageSendEvent"]) hrest
          refine ⟨h1, ?_⟩
          rw [h2, postSendCalls_append]
          simp [postSendCalls, sendOfLog, h0, ht, hu]
        | some vals =>
          rw [hu] at hhead
          simp only at hhead ⊢
          cases h1t : vLog.Topics[1]? with
          | none => rw [h1t] at hhead; simp at hhead
          | some sender =>
            simp only
            cases env.PostSend tr
              ⟨sender, chainOb.chain, vals.destContract, cfg.FindChainByID vals.destChainID,
                vals.zetaAmount, vals.zetaAmount, vals.message, vLog.TxHash,
                vLog.BlockNumber⟩ with
            | error e =>
              simp only
              obtain ⟨h1, h2⟩ := ih (tr ++ [Event.PostSend
                ⟨sender, chainOb.chain, vals.destContract, cfg.FindChainByID vals.destChainID,
                  vals.zetaAmount, vals.zetaAmount, vals.message, vLog.TxHash,
                  vLog.BlockNumber⟩, Event.LogErr "error posting to meta core"]) hrest
              refine ⟨h1, ?_⟩
              rw [h2, postSendCalls_append]
              simp [postSendCalls, sendOfLog, h0, ht, hu, h1t]
            | ok metaHash =>
              simp only
              obtain ⟨h1, h2⟩ := ih (tr ++ [Event.PostSend
                ⟨sender, chainOb.chain, vals.destContract, cfg.FindChainByID vals.destChainID,
                  vals.zetaAmount, vals.zetaAmount, vals.message, vLog.TxHash,
                  vLog.BlockNumber⟩]) hrest
              refine ⟨h1, ?_⟩
              rw [h2, postSendCalls_append]
              simp [postSendCalls, sendOfLog, h0, ht, hu, h1t]
      · rw [if_neg ht]
        obtain ⟨h1, h2⟩ := ih tr hrest
        refine ⟨h1, ?_⟩
        rw [h2]
        simp [sendOfLog, h0, ht]

/-- A cycle whose head read and log filter succeed, on logs whose read indices
exist: it returns `nil`, the cursor is the upper block of the window, the
`PostSend` calls are the expected calls of the logs, and the one store write
is the varint form of the new cursor under `PosKey`. -/
theorem observeChain_completes (cfg : Config) (env : Env) (chainOb : ChainObserver)
    (header : Nat) (logs : List Log) (hH : env.HeaderByNumber = .ok header)
    (hgt : ¬ sub64 header chainOb.confCount ≤ chainOb.LastBlock)
    (hF : env.FilterLogs [] (cycleQuery cfg chainOb header) = .ok logs)
    (hwf : ∀ vLog ∈ logs, sentLogIndexable cfg vLog = true) :
    ∃ value, encodeCursor (cycleToBlock cfg chainOb header) = some value ∧
      decodeCursor value = cycleToBlock cfg chainOb header ∧
      (observeChain cfg env chainOb).outcome = .returned none ∧
      (observeChain cfg env chainOb).chainOb.LastBlock = cycleToBlock cfg chainOb header ∧
      postSendCalls (observeChain cfg env chainOb).trace =
        logs.filterMap (sendOfLog cfg chainOb) ∧
      dbPuts (observeChain cfg env chainOb).trace = [(PosKey, value)] := by
  obtain ⟨value, henc, hdec⟩ :=
    encodeCursor_isSome (cycleToBlock cfg chainOb header) (cycleToBlock_lt cfg chainOb header)
  obtain ⟨hend, hposts⟩ := observeLogs_posts cfg env chainOb logs
    [Event.FilterLogs (cycleQuery cfg chainOb header)] hwf
  have hputs := observeLogs_dbPuts cfg env chainOb logs
    [Event.FilterLogs (cycleQuery cfg chainOb header)]
  refine ⟨value, henc, hdec, ?_⟩
  rw [observeChain_filter_ok cfg env chainOb header logs hH hgt hF]
  split
  · next tr heq => rw [heq] at hend; simp at hend
  · next tr heq =>
    rw [heq] at hposts hputs
    have hposts2 : postSendCalls tr = logs.filterMap (sendOfLog cfg chainOb) := by
      simpa [postSendCalls] using hposts
    have hputs2 : dbPuts tr = [] := by simpa [dbPuts] using hputs
    rw [henc]
    simp only
    split
    · refine ⟨rfl, rfl, ?_, ?_⟩
      · rw [postSendCalls_append, hposts2]; simp [postSendCalls]
      · rw [dbPuts_append, hputs2]; simp [dbPuts]
    · refine ⟨rfl, rfl, ?_, ?_⟩
      · rw [postSendCalls_append, hposts2]; simp [postSendCalls]
      · rw [dbPuts_append, hputs2]; simp [dbPuts]

/-- C5, as amended: in every cycle whose head read and log filter succeed
with `H - C > L`, and whose logs carry the topics the loop indexes
(`Topics[0]`, and `Topics[1]` on a decodable `ZetaSent` log), the cycle
returns `nil` and the cursor is the upper block `to` of the queried window,
whatever decoding, `PostSend` and the store write answer; the one value
written under `PosKey` is the varint form of `to`. -/
theorem observeChain_advances (cfg : Config) (env : Env) (chainOb : ChainObserver)
    (H : Nat) (logs : List Log) (hH : env.HeaderByNumber = .ok H) (hH64 : H < u64)
    (hconf : (chainOb.LastBlock : Int) < (H : Int) - (chainOb.confCount : Int))
    (hF : env.FilterLogs [] (cycleQuery cfg chainOb H) = .ok logs)
    (hwf : ∀ vLog ∈ logs, sentLogIndexable cfg vLog = true) :
    ∃ toBlock value,
      queriedWindow (observeChain cfg env chainOb).trace =
        some (chainOb.LastBlock + 1, toBlock) ∧
      (observeChain cfg env chainOb).chainOb.LastBlock = toBlock ∧
      (observeChain cfg env chainOb).outcome = .returned none ∧
      encodeCursor toBlock = some value ∧
      dbPuts (observeChain cfg env chainOb).trace = [(PosKey, value)] := by
  have hC : chainOb.confCount ≤ H := by omega
  have hsub : sub64 H chainOb.confCount = H - chainOb.confCount := sub64_of_le H _ hH64 hC
  have hgt : ¬ sub64 H chainOb.confCount ≤ chainOb.LastBlock := by omega
  obtain ⟨value, henc, _, hout, hlast, _, hputs⟩ :=
    observeChain_completes cfg env chainOb H logs hH hgt hF hwf
  refine ⟨cycleToBlock cfg chainOb H, value, ?_, hlast, hout, henc, hputs⟩
  unfold queriedWindow
  rw [observeChain_filterQueries_active cfg env chainOb H hH hgt]
  simp only [cycleQuery]
  rw [cycle_from chainOb H hgt]

/-- C5, witness: cursor 500, head 520, depth 6, window 10; the filter returns
a `ZetaSent` log whose data does not decode and one whose post fails, and
the store write fails. -/
theorem observeChain_advances_witness :
    ((demoEnv 520 [⟨[77, 4], [0], 33, 505⟩, ⟨[77, 4], [1], 34, 506⟩] false false).HeaderByNumber
        = .ok 520 ∧
      520 < u64 ∧
      ((demoObserver 500 6).LastBlock : Int) < (520 : Int) - ((demoObserver 500 6).confCount : Int) ∧
      (demoEnv 520 [⟨[77, 4], [0], 33, 505⟩, ⟨[77, 4], [1], 34, 506⟩] false false).FilterLogs []
          (cycleQuery (demoConfig 10 12) (demoObserver 500 6) 520)
        = .ok [⟨[77, 4], [0], 33, 505⟩, ⟨[77, 4], [1], 34, 506⟩] ∧
      ∀ vLog ∈ [(⟨[77, 4], [0], 33, 505⟩ : Log), ⟨[77, 4], [1], 34, 506⟩],
        sentLogIndexable (demoConfig 10 12) vLog = true) ∧
    ∃ toBlock value,
      queriedWindow (observeChain (demoConfig 10 12)
          (demoEnv 520 [⟨[77, 4], [0], 33, 505⟩, ⟨[77, 4], [1], 34, 506⟩] false false)
          (demoObserver 500 6)).trace = some ((demoObserver 500 6).LastBlock + 1, toBlock) ∧
      (observeChain (demoConfig 10 12)
          (demoEnv 520 [⟨[77, 4], [0], 33, 505⟩, ⟨[77, 4], [1], 34, 506⟩] false false)
          (demoObserver 500 6)).chainOb.LastBlock = toBlock ∧
      (observeChain (demoConfig 10 12)
          (demoEnv 520 [⟨[77, 4], [0], 33, 505⟩, ⟨[77, 4], [1], 34, 506⟩] false false)
          (demoObserver 500 6)).outcome = .returned none ∧
      encodeCursor toBlock = some value ∧
      dbPuts (observeChain (demoConfig 10 12)
          (demoEnv 520 [⟨[77, 4], [0], 33, 505⟩, ⟨[77, 4], [1], 34, 506⟩] false false)
          (demoObserver 500 6)).trace = [(PosKey, value)] :=
  ⟨⟨rfl, by decide, by decide, rfl, by decide⟩,
    observeChain_advances (demoConfig 10 12)
      (demoEnv 520 [⟨[77, 4], [0], 33, 505⟩, ⟨[77, 4], [1], 34, 506⟩] false false)
      (demoObserver 500 6) 520 [⟨[77, 4], [0], 33, 505⟩, ⟨[77, 4], [1], 34, 506⟩]
      rfl (by decide) (by decide) rfl (by decide)⟩

/-- C5, counterexample: cursor 500, head 520, depth 6, window 10, so that
`H - C = 514 > L` and `to = 510`; head read and log filter succeed.  The one
log returned has the `ZetaSent` hash as its only topic and data that decodes.
Reading `Topics[1]` panics: the cycle does not return, the cursor stays at
500 and nothing is written to the store. -/
theorem observeChain_no_advance_on_short_log :
    (demoEnv 520 [⟨[77], [1], 33, 505⟩] true true).HeaderByNumber = .ok 520 ∧
    (demoEnv 520 [⟨[77], [1], 33, 505⟩] true true).FilterLogs []
        (cycleQuery (demoConfig 10 12) (demoObserver 500 6) 520)
      = .ok [⟨[77], [1], 33, 505⟩] ∧
    specWindow 520 6 10 500 = some (501, 510) ∧
    (observeChain (demoConfig 10 12) (demoEnv 520 [⟨[77], [1], 33, 505⟩] true true)
        (demoObserver 500 6)).outcome = .panicked ∧
    (observeChain (demoConfig 10 12) (demoEnv 520 [⟨[77], [1], 33, 505⟩] true true)
        (demoObserver 500 6)).chainOb.LastBlock = 500 ∧
    dbPuts (observeChain (demoConfig 10 12) (demoEnv 520 [⟨[77], [1], 33, 505⟩] true true)
        (demoObserver 500 6)).trace = [] :=
  ⟨rfl, rfl, by decide, by decide, by decide, by decide⟩

/-- C6, as amended: for every list of logs returned by the filter in which
each log carries the topics the loop indexes (`Topics[0]`, and `Topics[1]` on
a decodable `ZetaSent` log), the `PostSend` calls of the cycle are exactly,
in the order of the list, one call per log whose `Topics[0]` is the
`ZetaSent` hash and whose data decodes, with the transaction hash and block
number of that log; the other logs give no call, and neither they nor a
failed post stop the loop: the cycle returns `nil`. -/
theorem observeChain_post_sequence (cfg : Config) (env : Env) (chainOb : ChainObserver)
    (header : Nat) (logs : List Log) (hH : env.HeaderByNumber = .ok header)
    (hgt : ¬ sub64 header chainOb.confCount ≤ chainOb.LastBlock)
    (hF : env.FilterLogs [] (cycleQuery cfg chainOb header) = .ok logs)
    (hwf : ∀ vLog ∈ logs, sentLogIndexable cfg vLog = true) :
    postSendCalls (observeChain cfg env chainOb).trace =
        logs.filterMap (sendOfLog cfg chainOb) ∧
    (observeChain cfg env chainOb).outcome = .returned none ∧
    (∀ vLog call, sendOfLog cfg chainOb vLog = some call →
      vLog.Topics[0]? = some cfg.logZetaSentSignatureHash ∧
      (cfg.unpackZetaSent vLog.Data).isSome = true ∧
      call.inTxHash = vLog.TxHash ∧ call.inBlockHeight = vLog.BlockNumber) ∧
    (∀ vLog, (vLog.Topics[0]? ≠ some cfg.logZetaSentSignatureHash ∨
        cfg.unpackZetaSent vLog.Data = none) → sendOfLog cfg chainOb vLog = none) := by
  obtain ⟨_, _, _, hout, _, hposts, _⟩ :=
    observeChain_completes cfg env chainOb header logs hH hgt hF hwf
  refine ⟨hposts, hout, ?_, ?_⟩
  · intro vLog call hcall
    unfold sendOfLog at hcall
    by_cases ht : vLog.Topics[0]? = some cfg.logZetaSentSignatureHash
    · rw [if_pos ht] at hcall
      cases hu : cfg.unpackZetaSent vLog.Data with
      | none => rw [hu] at hcall; simp at hcall
      | some vals =>
        rw [hu] at hcall
        simp only [Option.some.injEq] at hcall
        subst hcall
        exact ⟨ht, rfl, rfl, rfl⟩
    · rw [if_neg ht] at hcall; simp at hcall
  · intro vLog h
    unfold sendOfLog
    rcases h with h | h
    · rw [if_neg h]
    · rw [h]; simp

/-- C6, witness: cursor 500, head 520, depth 6, window 10, every post
failing; of the four logs returned, the second and the fourth are decodable
`ZetaSent` logs. -/
theorem observeChain_post_sequence_witness :
    ((demoEnv 520 [⟨[55, 4], [1], 31, 503⟩, ⟨[77, 4], [1], 33, 505⟩, ⟨[77, 4], [0], 34, 506⟩,
        ⟨[77, 9], [1], 35, 507⟩] false true).HeaderByNumber = .ok 520 ∧
      ¬ sub64 520 (demoObserver 500 6).confCount ≤ (demoObserver 500 6).LastBlock ∧
      (demoEnv 520 [⟨[55, 4], [1], 31, 503⟩, ⟨[77, 4], [1], 33, 505⟩, ⟨[77, 4], [0], 34, 506⟩,
          ⟨[77, 9], [1], 35, 507⟩] false true).FilterLogs []
          (cycleQuery (demoConfig 10 12) (demoObserver 500 6) 520)
        = .ok [⟨[55, 4], [1], 31, 503⟩, ⟨[77, 4], [1], 33, 505⟩, ⟨[77, 4], [0], 34, 506⟩,
          ⟨[77, 9], [1], 35, 507⟩] ∧
      ∀ vLog ∈ [(⟨[55, 4], [1], 31, 503⟩ : Log), ⟨[77, 4], [1], 33, 505⟩,
          ⟨[77, 4], [0], 34, 506⟩, ⟨[77, 9], [1], 35, 507⟩],
        sentLogIndexable (demoConfig 10 12) vLog = true) ∧
    (postSendCalls (observeChain (demoConfig 10 12)
        (demoEnv 520 [⟨[55, 4], [1], 31, 503⟩, ⟨[77, 4], [1], 33, 505⟩, ⟨[77, 4], [0], 34, 506⟩,
          ⟨[77, 9], [1], 35, 507⟩] false true) (demoObserver 500 6)).trace =
      [⟨4, "ETH", [2], "POLYGON", 1000, 1000, [3], 33, 505⟩,
        ⟨9, "ETH", [2], "POLYGON", 1000, 1000, [3], 35, 507⟩]) :=
  ⟨⟨rfl, by decide, rfl, by decide⟩,
    (observeChain_post_sequence (demoConfig 10 12)
      (demoEnv 520 [⟨[55, 4], [1], 31, 503⟩, ⟨[77, 4], [1], 33, 505⟩, ⟨[77, 4], [0], 34, 506⟩,
        ⟨[77, 9], [1], 35, 507⟩] false true) (demoObserver 500 6) 520
      [⟨[55, 4], [1], 31, 503⟩, ⟨[77, 4], [1], 33, 505⟩, ⟨[77, 4], [0], 34, 506⟩,
        ⟨[77, 9], [1], 35, 507⟩] rfl (by decide) rfl (by decide)).1.trans (by decide)⟩

/-- C6, counterexample: the filter returns two logs whose `Topics[0]` is the
`ZetaSent` hash and whose data decodes, the first with no further topic.  The
claim calls for two `PostSend` calls; reading `Topics[1]` of the first log
panics, so the cycle makes none and never reaches the second log. -/
theorem observeChain_short_log_stops_posts :
    (∀ vLog ∈ [(⟨[77], [1], 33, 505⟩ : Log), ⟨[77, 4], [1], 34, 506⟩],
      vLog.Topics[0]? = some (demoConfig 10 12).logZetaSentSignatureHash ∧
      ((demoConfig 10 12).unpackZetaSent vLog.Data).isSome = true) ∧
    postSendCalls (observeChain (demoConfig 10 12)
        (demoEnv 520 [⟨[77], [1], 33, 505⟩, ⟨[77, 4], [1], 34, 506⟩] true true)
        (demoObserver 500 6)).trace = [] ∧
    (observeChain (demoConfig 10 12)
        (demoEnv 520 [⟨[77], [1], 33, 505⟩, ⟨[77, 4], [1], 34, 506⟩] true true)
        (demoObserver 500 6)).outcome = .panicked := by
  decide

/-! ## The point query -/

theorem IsSendOutTxProcessed_single (cfg : Config) (env : Env) (chainOb : ChainObserver)
    (sendHash : Hash) (vLog : Log)
    (hF : env.FilterLogs [] (sendOutQuery cfg chainOb sendHash) = .ok [vLog]) :
    IsSendOutTxProcessed cfg env chainOb sendHash =
      ⟨chainOb,
        (sendOutLogs cfg env chainOb [vLog]
          [Event.FilterLogs (sendOutQuery cfg chainOb sendHash)]).1,
        (sendOutLogs cfg env chainOb [vLog]
          [Event.FilterLogs (sendOutQuery cfg chainOb sendHash)]).2⟩ := by
  unfold IsSendOutTxProcessed
  unfold sendOutQuery at hF
  simp only [hF]
  simp [sendOutQuery]

/-- The loop of the point query on a single well-formed, decodable
`ZetaReceived` log: what decides is `B + ETH_CONFIRMATION_COUNT < LastBlock`
in 64-bit arithmetic, and the answer of the post. -/
theorem sendOutLogs_single (cfg : Config) (env : Env) (chainOb : ChainObserver)
    (vLog : Log) (tr : List Event) (retval : ZetaReceivedVals) (t1 t2 t3 : Hash)
    (h0 : vLog.Topics[0]? = some cfg.logZetaReceivedSignatureHash)
    (h1 : vLog.Topics[1]? = some t1) (h2 : vLog.Topics[2]? = some t2)
    (h3 : vLog.Topics[3]? = some t3)
    (hdec : cfg.unpackZetaReceived vLog.Data = some retval) :
    sendOutLogs cfg env chainOb [vLog] tr =
      if add64 vLog.BlockNumber cfg.ETH_CONFIRMATION_COUNT < chainOb.LastBlock then
        match env.PostReceiveConfirmation tr
            ⟨t3, vLog.TxHash, vLog.BlockNumber, retval.zetaAmount, ReceiveStatus.Success,
              chainOb.chain⟩ with
        | .error _ =>
          (tr ++ [Event.PostReceiveConfirmation
              ⟨t3, vLog.TxHash, vLog.BlockNumber, retval.zetaAmount, ReceiveStatus.Success,
                chainOb.chain⟩,
            Event.LogErr "error posting confirmation to meta core"],
            .returned (false, false,
              some ("IsSendOutTxProcessed: unknown chain " ++ chainOb.chain)))
        | .ok _ =>
          (tr ++ [Event.PostReceiveConfirmation
              ⟨t3, vLog.TxHash, vLog.BlockNumber, retval.zetaAmount, ReceiveStatus.Success,
                chainOb.chain⟩],
            .returned (true, true, none))
      else (tr, .returned (true, false, none)) := by
  unfold sendOutLogs
  simp only [h0, h1, h2, h3, hdec, if_true]
  split
  · split <;> simp_all [sendOutLogs]
  · rfl

theorem IsSendOutTxProcessed_filter_error (cfg : Config) (env : Env)
    (chainOb : ChainObserver) (sendHash : Hash) (err : String)
    (hF : env.FilterLogs [] (sendOutQuery cfg chainOb sendHash) = .error err) :
    IsSendOutTxProcessed cfg env chainOb sendHash =
      ⟨chainOb, [Event.FilterLogs (sendOutQuery cfg chainOb sendHash)],
        .returned (false, false,
          some ("IsSendOutTxProcessed: Client FilterLog fail " ++ err))⟩ := by
  unfold IsSendOutTxProcessed
  unfold sendOutQuery at hF
  simp only [hF]
  rfl

theorem IsSendOutTxProcessed_no_log (cfg : Config) (env : Env)
    (chainOb : ChainObserver) (sendHash : Hash)
    (hF : env.FilterLogs [] (sendOutQuery cfg chainOb sendHash) = .ok []) :
    IsSendOutTxProcessed cfg env chainOb sendHash =
      ⟨chainOb, [Event.FilterLogs (sendOutQuery cfg chainOb sendHash)],
        .returned (false, false, none)⟩ := by
  unfold IsSendOutTxProcessed
  unfold sendOutQuery at hF
  simp only [hF]
  rfl

theorem IsSendOutTxProcessed_many_logs (cfg : Config) (env : Env)
    (chainOb : ChainObserver) (sendHash : Hash) (v1 v2 : Log) (rest : List Log)
    (hF : env.FilterLogs [] (sendOutQuery cfg chainOb sendHash) = .ok (v1 :: v2 :: rest)) :
    IsSendOutTxProcessed cfg env chainOb sendHash =
      ⟨chainOb, [Event.FilterLogs (sendOutQuery cfg chainOb sendHash)], .exited⟩ := by
  unfold IsSendOutTxProcessed
  unfold sendOutQuery at hF
  simp only [hF]
  simp [sendOutQuery]

/-- The loop of the point query on one log, whatever the log: it answers
`(true, true)` only after one successful confirmation post for that log, it
answers `(true, false)` without any post, and it never answers
`(false, false)` without an error. -/
theorem sendOutLogs_single_cases (cfg : Config) (env : Env) (chainOb : ChainObserver)
    (vLog : Log) (tr : List Event) :
    ((sendOutLogs cfg env chainOb [vLog] tr).2 = .returned (true, true, none) →
      ∃ retval topic3 metaHash, cfg.unpackZetaReceived vLog.Data = some retval ∧
        vLog.Topics[3]? = some topic3 ∧
        (sendOutLogs cfg env chainOb [vLog] tr).1 =
          tr ++ [Event.PostReceiveConfirmation
            ⟨topic3, vLog.TxHash, vLog.BlockNumber, retval.zetaAmount,
              ReceiveStatus.Success, chainOb.chain⟩] ∧
        env.PostReceiveConfirmation tr
          ⟨topic3, vLog.TxHash, vLog.BlockNumber, retval.zetaAmount,
            ReceiveStatus.Success, chainOb.chain⟩ = .ok metaHash) ∧
    ((sendOutLogs cfg env chainOb [vLog] tr).2 = .returned (true, false, none) →
      (sendOutLogs cfg env chainOb [vLog] tr).1 = tr) ∧
    (sendOutLogs cfg env chainOb [vLog] tr).2 ≠ .returned (false, false, none) := by
  unfold sendOutLogs
  cases h0 : vLog.Topics[0]? with
  | none => simp
  | some topic0 =>
    simp only
    by_cases ht : topic0 = cfg.logZetaReceivedSignatureHash
    · rw [if_pos ht]
      cases hdec : cfg.unpackZetaReceived vLog.Data with
      | none => simp [sendOutLogs]
      | some retval =>
        simp only
        cases h1 : vLog.Topics[1]? with
        | none => simp
        | some t1 =>
          cases h2 : vLog.Topics[2]? with
          | none => simp
          | some t2 =>
            cases h3 : vLog.Topics[3]? with
            | none => simp
            | some t3 =>
              simp only
              by_cases hlt : add64 vLog.BlockNumber cfg.ETH_CONFIRMATION_COUNT < chainOb.LastBlock
              · rw [if_pos hlt]
                cases hp : env.PostReceiveConfirmation tr
                    ⟨t3, vLog.TxHash, vLog.BlockNumber, retval.zetaAmount,
                      ReceiveStatus.Success, chainOb.chain⟩ with
                | error e => simp [sendOutLogs]
                | ok metaHash => simp [hp]
              · rw [if_neg hlt]; simp
    · rw [if_neg ht]; simp [sendOutLogs]

/-- C8, as amended: when the filter returns exactly one decodable
`ZetaReceived` log (its four topics present) at block `B`, on an observer
whose confirmation depth `C` is `ETH_CONFIRMATION_COUNT` and with `B + C`
within 64 bits, the point query returns `(true, true)` if
`B + C < LastBlock` and the confirmation post succeeds, and `(true, false)`
if `B + C ≥ LastBlock`. -/
theorem IsSendOutTxProcessed_one_log (cfg : Config) (env : Env) (chainOb : ChainObserver)
    (sendHash : Hash) (vLog : Log) (retval : ZetaReceivedVals) (t1 t2 t3 : Hash)
    (hF : env.FilterLogs [] (sendOutQuery cfg chainOb sendHash) = .ok [vLog])
    (h0 : vLog.Topics[0]? = some cfg.logZetaReceivedSignatureHash)
    (h1 : vLog.Topics[1]? = some t1) (h2 : vLog.Topics[2]? = some t2)
    (h3 : vLog.Topics[3]? = some t3)
    (hdec : cfg.unpackZetaReceived vLog.Data = some retval)
    (hC : chainOb.confCount = cfg.ETH_CONFIRMATION_COUNT)
    (hB : vLog.BlockNumber + chainOb.confCount < u64) :
    (vLog.BlockNumber + chainOb.confCount < chainOb.LastBlock →
      (∀ err, env.PostReceiveConfirmation
          [Event.FilterLogs (sendOutQuery cfg chainOb sendHash)]
          ⟨t3, vLog.TxHash, vLog.BlockNumber, retval.zetaAmount, ReceiveStatus.Success,
            chainOb.chain⟩ ≠ .error err) →
      (IsSendOutTxProcessed cfg env chainOb sendHash).outcome =
        .returned (true, true, none)) ∧
    (chainOb.LastBlock ≤ vLog.BlockNumber + chainOb.confCount →
      (IsSendOutTxProcessed cfg env chainOb sendHash).outcome =
        .returned (true, false, none)) := by
  have hadd : add64 vLog.BlockNumber cfg.ETH_CONFIRMATION_COUNT =
      vLog.BlockNumber + chainOb.confCount := by
    rw [← hC]; exact add64_of_lt _ _ hB
  rw [IsSendOutTxProcessed_single cfg env chainOb sendHash vLog hF,
    sendOutLogs_single cfg env chainOb vLog _ retval t1 t2 t3 h0 h1 h2 h3 hdec, hadd]
  constructor
  · intro hlt hpost
    rw [if_pos hlt]
    cases hp : env.PostReceiveConfirmation
        [Event.FilterLogs (sendOutQuery cfg chainOb sendHash)]
        ⟨t3, vLog.TxHash, vLog.BlockNumber, retval.zetaAmount, ReceiveStatus.Success,
          chainOb.chain⟩ with
    | error err => exact absurd hp (hpost err)
    | ok metaHash => rfl
  · intro hge
    rw [if_neg (by omega)]

/-- C8, witness: the two scenarios of the specification, cursor 1000 and
depth 12: a log at block 980 gives `(true, true)`, a log at block 995 gives
`(true, false)`. -/
theorem IsSendOutTxProcessed_one_log_witness :
    ((demoEnv 0 [⟨[88, 1, 2, 5], [1], 33, 980⟩] true true).FilterLogs []
          (sendOutQuery (demoConfig 10 12) (demoObserver 1000 12) 5)
        = .ok [⟨[88, 1, 2, 5], [1], 33, 980⟩] ∧
      (demoConfig 10 12).unpackZetaReceived [1] = some ⟨[9], 1000, []⟩ ∧
      (demoObserver 1000 12).confCount = (demoConfig 10 12).ETH_CONFIRMATION_COUNT ∧
      980 + (demoObserver 1000 12).confCount < u64 ∧
      980 + (demoObserver 1000 12).confCount < (demoObserver 1000 12).LastBlock ∧
      (demoObserver 1000 12).LastBlock ≤ 995 + (demoObserver 1000 12).confCount) ∧
    (IsSendOutTxProcessed (demoConfig 10 12)
        (demoEnv 0 [⟨[88, 1, 2, 5], [1], 33, 980⟩] true true) (demoObserver 1000 12) 5).outcome
      = .returned (true, true, none) ∧
    (IsSendOutTxProcessed (demoConfig 10 12)
        (demoEnv 0 [⟨[88, 1, 2, 5], [1], 33, 995⟩] true true) (demoObserver 1000 12) 5).outcome
      = .returned (true, false, none) :=
  ⟨⟨rfl, rfl, rfl, by decide, by decide, by decide⟩,
    (IsSendOutTxProcessed_one_log (demoConfig 10 12)
      (demoEnv 0 [⟨[88, 1, 2, 5], [1], 33, 980⟩] true true) (demoObserver 1000 12) 5
      ⟨[88, 1, 2, 5], [1], 33, 980⟩ ⟨[9], 1000, []⟩ 1 2 5 rfl rfl rfl rfl rfl rfl rfl
      (by decide)).1 (by decide) (fun err h => by cases h),
    (IsSendOutTxProcessed_one_log (demoConfig 10 12)
      (demoEnv 0 [⟨[88, 1, 2, 5], [1], 33, 995⟩] true true) (demoObserver 1000 12) 5
      ⟨[88, 1, 2, 5], [1], 33, 995⟩ ⟨[9], 1000, []⟩ 1 2 5 rfl rfl rfl rfl rfl rfl rfl
      (by decide)).2 (by decide)⟩

/-- C8, counterexample: cursor 1000 and depth 12 (the observer's depth and
`ETH_CONFIRMATION_COUNT` alike), one decodable `ZetaReceived` log.  At block
988, where `B + C = 1000 ≤ last_scanned`, the claim gives `(true, true)` and
the code returns `(true, false)`; at block 980 with a failing confirmation
post the claim gives `(true, true)` and the code returns `(false, false)`
with an error; at block `2 ^ 64 - 5`, where `B + C` wraps to 7, the claim
gives `(true, false)` and the code returns `(true, true)`. -/
theorem IsSendOutTxProcessed_differs_from_spec :
    (specSendProcessed 988 12 1000 = (true, true) ∧
      (IsSendOutTxProcessed (demoConfig 10 12)
          (demoEnv 0 [⟨[88, 1, 2, 5], [1], 33, 988⟩] true true)
          (demoObserver 1000 12) 5).outcome = .returned (true, false, none)) ∧
    (specSendProcessed 980 12 1000 = (true, true) ∧
      (IsSendOutTxProcessed (demoConfig 10 12)
          (demoEnv 0 [⟨[88, 1, 2, 5], [1], 33, 980⟩] false true)
          (demoObserver 1000 12) 5).outcome =
        .returned (false, false, some "IsSendOutTxProcessed: unknown chain ETH")) ∧
    (specSendProcessed 18446744073709551611 12 1000 = (true, false) ∧
      (IsSendOutTxProcessed (demoConfig 10 12)
          (demoEnv 0 [⟨[88, 1, 2, 5], [1], 33, 18446744073709551611⟩] true true)
          (demoObserver 1000 12) 5).outcome = .returned (true, true, none)) := by
  decide

/-- C9: if the point query returns `(true, true)` without error, the filter
returned one log, the query made exactly one `PostReceiveConfirmation` call,
that call succeeded, and it carried the log's `Topics[3]`, transaction hash
and block number, the decoded `zetaAmount`, the status `Success` and the
observer's chain; if it returns `(true, false)`, or `(false, false)` without
error, it made no such call. -/
theorem IsSendOutTxProcessed_confirmation_calls (cfg : Config) (env : Env)
    (chainOb : ChainObserver) (sendHash : Hash) :
    ((IsSendOutTxProcessed cfg env chainOb sendHash).outcome = .returned (true, true, none) →
      ∃ vLog retval topic3 metaHash,
        env.FilterLogs [] (sendOutQuery cfg chainOb sendHash) = .ok [vLog] ∧
        cfg.unpackZetaReceived vLog.Data = some retval ∧
        vLog.Topics[3]? = some topic3 ∧
        postReceiveCalls (IsSendOutTxProcessed cfg env chainOb sendHash).trace =
          [⟨topic3, vLog.TxHash, vLog.BlockNumber, retval.zetaAmount,
            ReceiveStatus.Success, chainOb.chain⟩] ∧
        env.PostReceiveConfirmation
          [Event.FilterLogs (sendOutQuery cfg chainOb sendHash)]
          ⟨topic3, vLog.TxHash, vLog.BlockNumber, retval.zetaAmount,
            ReceiveStatus.Success, chainOb.chain⟩ = .ok metaHash) ∧
    ((IsSendOutTxProcessed cfg env chainOb sendHash).outcome = .returned (true, false, none) →
      postReceiveCalls (IsSendOutTxProcessed cfg env chainOb sendHash).trace = []) ∧
    ((IsSendOutTxProcessed cfg env chainOb sendHash).outcome = .returned (false, false, none) →
      postReceiveCalls (IsSendOutTxProcessed cfg env chainOb sendHash).trace = []) := by
  cases hF : env.FilterLogs [] (sendOutQuery cfg chainOb sendHash) with
  | error err =>
    rw [IsSendOutTxProcessed_filter_error cfg env chainOb sendHash err hF]
    simp
  | ok logs =>
    match logs, hF with
    | [], hF =>
      rw [IsSendOutTxProcessed_no_log cfg env chainOb sendHash hF]
      simp [postReceiveCalls]
    | [vLog], hF =>
      rw [IsSendOutTxProcessed_single cfg env chainOb sendHash vLog hF]
      obtain ⟨hTT, hTF, hFF⟩ := sendOutLogs_single_cases cfg env chainOb vLog
        [Event.FilterLogs (sendOutQuery cfg chainOb sendHash)]
      refine ⟨?_, ?_, ?_⟩
      · intro hout
        obtain ⟨retval, topic3, metaHash, hdec, h3, htr, hpost⟩ := hTT hout
        refine ⟨vLog, retval, topic3, metaHash, rfl, hdec, h3, ?_, hpost⟩
        simp only [htr]
        simp [postReceiveCalls]
      · intro hout
        simp only [hTF hout]
        simp [postReceiveCalls]
      · intro hout
        exact absurd hout hFF
    | v1 :: v2 :: rest, hF =>
      rw [IsSendOutTxProcessed_many_logs cfg env chainOb sendHash v1 v2 rest hF]
      simp

/-- C9, witness: cursor 1000, depth 12, one log at block 980: the query
returns `(true, true)` and its one call carries send hash 5, transaction
hash 33, block 980, amount 1000, `Success` and chain `ETH`; with the log at
block 995 it returns `(true, false)` and makes no call. -/
theorem IsSendOutTxProcessed_confirmation_calls_witness :
    ((IsSendOutTxProcessed (demoConfig 10 12)
          (demoEnv 0 [⟨[88, 1, 2, 5], [1], 33, 980⟩] true true)
          (demoObserver 1000 12) 5).outcome = .returned (true, true, none) ∧
      ∃ vLog retval topic3 metaHash,
        (demoEnv 0 [⟨[88, 1, 2, 5], [1], 33, 980⟩] true true).FilterLogs []
            (sendOutQuery (demoConfig 10 12) (demoObserver 1000 12) 5) = .ok [vLog] ∧
        (demoConfig 10 12).unpackZetaReceived vLog.Data = some retval ∧
        vLog.Topics[3]? = some topic3 ∧
        postReceiveCalls (IsSendOutTxProcessed (demoConfig 10 12)
            (demoEnv 0 [⟨[88, 1, 2, 5], [1], 33, 980⟩] true true)
            (demoObserver 1000 12) 5).trace =
          [⟨topic3, vLog.TxHash, vLog.BlockNumber, retval.zetaAmount,
            ReceiveStatus.Success, (demoObserver 1000 12).chain⟩] ∧
        (demoEnv 0 [⟨[88, 1, 2, 5], [1], 33, 980⟩] true true).PostReceiveConfirmation
          [Event.FilterLogs (sendOutQuery (demoConfig 10 12) (demoObserver 1000 12) 5)]
          ⟨topic3, vLog.TxHash, vLog.BlockNumber, retval.zetaAmount,
            ReceiveStatus.Success, (demoObserver 1000 12).chain⟩ = .ok metaHash) ∧
    ((IsSendOutTxProcessed (demoConfig 10 12)
          (demoEnv 0 [⟨[88, 1, 2, 5], [1], 33, 995⟩] true true)
          (demoObserver 1000 12) 5).outcome = .returned (true, false, none) ∧
      postReceiveCalls (IsSendOutTxProcessed (demoConfig 10 12)
          (demoEnv 0 [⟨[88, 1, 2, 5], [1], 33, 995⟩] true true)
          (demoObserver 1000 12) 5).trace = []) :=
  ⟨⟨by decide,
      (IsSendOutTxProcessed_confirmation_calls (demoConfig 10 12)
        (demoEnv 0 [⟨[88, 1, 2, 5], [1], 33, 980⟩] true true)
        (demoObserver 1000 12) 5).1 (by decide)⟩,
    ⟨by decide,
      (IsSendOutTxProcessed_confirmation_calls (demoConfig 10 12)
        (demoEnv 0 [⟨[88, 1, 2, 5], [1], 33, 995⟩] true true)
        (demoObserver 1000 12) 5).2.1 (by decide)⟩⟩

end ZetaClient

namespace Smoketests

/-! ## The trace loop -/

theorem stopHeight_cons (bn : Int) (header : BlockHeader) (rest : List BlockHeader) :
    stopHeight (wrapInt64 (header.Height - 1)) rest = stopHeight bn (header :: rest) := by
  cases rest with
  | nil => simp [stopHeight]
  | cons next more =>
    unfold stopHeight
    rw [List.getLast?_cons_cons]
    cases hlast : (next :: more).getLast? with
    | none => simp at hlast
    | some last => rfl

/-- Every finished run of the loop asked first for the hash it started from. -/
theorem traceBack_calls (client : ObserverClient) (fuel : Nat) :
    ∀ (bn : Int) (hash : List Nat) (calls : List (List Nat)) (bn2 : Int)
      (calls2 : List (List Nat)),
      traceBack client fuel bn hash calls = some (bn2, calls2) →
      ∃ more, calls2 = calls ++ hash :: more := by
  induction fuel with
  | zero => intro bn hash calls bn2 calls2 h; simp [traceBack] at h
  | succ fuel ih =>
    intro bn hash calls bn2 calls2 h
    unfold traceBack at h
    cases hq : client.GetBlockHeaderByHash hash with
    | error err =>
      rw [hq] at h
      simp only [Option.some.injEq, Prod.mk.injEq] at h
      exact ⟨[], h.2.symm⟩
    | ok header =>
      rw [hq] at h
      obtain ⟨more, hmore⟩ := ih _ _ _ _ _ h
      exact ⟨header.ParentHash :: more, by rw [hmore]; simp⟩

/-- When the walk from `hash` retrieves `headers` and then fails, the loop
with more fuel than headers stops with `bn` at the stop height, having asked
for `hash` and for the parent hash of every header. -/
theorem traceBack_walk (client : ObserverClient) (headers : List BlockHeader) :
    ∀ (hash : List Nat) (fuel : Nat) (bn : Int) (calls : List (List Nat)),
      walkStops client hash headers = true → headers.length < fuel →
      traceBack client fuel bn hash calls =
        some (stopHeight bn headers,
          calls ++ hash :: headers.map (fun header => header.ParentHash)) := by
  induction headers with
  | nil =>
    intro hash fuel bn calls hW hfuel
    cases fuel with
    | zero => simp at hfuel
    | succ fuel =>
      unfold walkStops at hW
      unfold traceBack
      cases hq : client.GetBlockHeaderByHash hash with
      | error err => simp [stopHeight]
      | ok header => rw [hq] at hW; simp at hW
  | cons header rest ih =>
    intro hash fuel bn calls hW hfuel
    cases fuel with
    | zero => simp at hfuel
    | succ fuel =>
      unfold walkStops at hW
      unfold traceBack
      cases hq : client.GetBlockHeaderByHash hash with
      | error err => rw [hq] at hW; simp at hW
      | ok found =>
        rw [hq] at hW
        simp only [Bool.and_eq_true, decide_eq_true_eq] at hW
        obtain ⟨hfound, hrest⟩ := hW
        subst hfound
        simp only
        rw [ih found.ParentHash fuel (wrapInt64 (found.Height - 1)) (calls ++ [hash]) hrest
          (by simpa using hfuel), stopHeight_cons bn found rest]
        simp

/-! ## The closure `checkBlock` -/

theorem checkBlock_rejects (client : ObserverClient) (fuel : Nat) (chainID : Int)
    (state : BlockHeaderState)
    (hS : client.GetBlockHeaderStateByChain chainID = .ok (some (some state)))
    (hbad : state.EarliestHeight = 0 ∨ state.LatestHeight = state.EarliestHeight) :
    checkBlock client fuel chainID = some ⟨[], .panicked "no blocks"⟩ := by
  unfold checkBlock
  rw [hS]
  simp only [hbad, if_true]

theorem checkBlock_traces (client : ObserverClient) (fuel : Nat) (chainID : Int)
    (state : BlockHeaderState)
    (hS : client.GetBlockHeaderStateByChain chainID = .ok (some (some state)))
    (hE : state.EarliestHeight ≠ 0) (hL : state.LatestHeight ≠ state.EarliestHeight) :
    checkBlock client fuel chainID =
      match traceBack client fuel state.LatestHeight state.LatestBlockHash [] with
      | none => none
      | some (bn, calls) =>
        if bn > state.EarliestHeight then
          some ⟨calls, .tracingFailed state.EarliestHeight bn⟩
        else some ⟨calls, .succeeded⟩ := by
  unfold checkBlock
  rw [hS]
  have hgood : ¬ (state.EarliestHeight = 0 ∨ state.LatestHeight = state.EarliestHeight) := by
    rintro (h | h)
    · exact hE h
    · exact hL h
  simp only [hgood, if_false]

/-- C11, as amended: for every header state returned by the coordinator, a
state with `earliest = 0` or `latest = earliest` is rejected (panic "no
blocks") before any `GetBlockHeaderByHash` call; a run that made such a call
had `earliest ≠ 0` and `latest ≠ earliest`; and every finished run on such a
state did trace, asking first for `latest_hash`. -/
theorem checkBlock_preconditions (client : ObserverClient) (fuel : Nat) (chainID : Int)
    (state : BlockHeaderState)
    (hS : client.GetBlockHeaderStateByChain chainID = .ok (some (some state))) :
    ((state.EarliestHeight = 0 ∨ state.LatestHeight = state.EarliestHeight) →
      checkBlock client fuel chainID = some ⟨[], .panicked "no blocks"⟩) ∧
    (∀ run, checkBlock client fuel chainID = some run → run.calls ≠ [] →
      state.EarliestHeight ≠ 0 ∧ state.LatestHeight ≠ state.EarliestHeight) ∧
    (state.EarliestHeight ≠ 0 → state.LatestHeight ≠ state.EarliestHeight →
      ∀ run, checkBlock client fuel chainID = some run →
        ∃ more, run.calls = state.LatestBlockHash :: more) := by
  refine ⟨checkBlock_rejects client fuel chainID state hS, ?_, ?_⟩
  · intro run hrun hcalls
    by_cases hbad : state.EarliestHeight = 0 ∨ state.LatestHeight = state.EarliestHeight
    · rw [checkBlock_rejects client fuel chainID state hS hbad] at hrun
      simp only [Option.some.injEq] at hrun
      subst hrun
      exact absurd rfl hcalls
    · exact ⟨fun h => hbad (Or.inl h), fun h => hbad (Or.inr h)⟩
  · intro hE hL run hrun
    rw [checkBlock_traces client fuel chainID state hS hE hL] at hrun
    cases ht : traceBack client fuel state.LatestHeight state.LatestBlockHash [] with
    | none => rw [ht] at hrun; simp at hrun
    | some res =>
      obtain ⟨bn, calls⟩ := res
      rw [ht] at hrun
      obtain ⟨more, hmore⟩ := traceBack_calls client fuel _ _ _ _ _ ht
      simp only at hrun
      split at hrun
      · simp only [Option.some.injEq] at hrun
        subst hrun
        exact ⟨more, by simpa using hmore⟩
      · simp only [Option.some.injEq] at hrun
        subst hrun
        exact ⟨more, by simpa using hmore⟩

/-- C11, witness: a state with `earliest = 0` is rejected with no call, and a
state with `earliest = 100`, `latest = 103` is traced from the hash `[103]`. -/
theorem checkBlock_preconditions_witness :
    (((demoClient 0 50 40).GetBlockHeaderStateByChain 1
          = .ok (some (some ⟨0, 50, [50]⟩)) ∧
        ((0 : Int) = 0 ∨ (50 : Int) = 0)) ∧
      checkBlock (demoClient 0 50 40) 5 1 = some ⟨[], .panicked "no blocks"⟩) ∧
    (((demoClient 100 103 95).GetBlockHeaderStateByChain 1
          = .ok (some (some ⟨100, 103, [103]⟩)) ∧
        (100 : Int) ≠ 0 ∧ (103 : Int) ≠ 100 ∧
        checkBlock (demoClient 100 103 95) 20 1 =
          some ⟨[[103], [102], [101], [100], [99], [98], [97], [96], [95], [94]],
            .succeeded⟩) ∧
      ∃ more, ([[103], [102], [101], [100], [99], [98], [97], [96], [95], [94]] :
        List (List Nat)) = [103] :: more) :=
  ⟨⟨⟨rfl, Or.inl rfl⟩,
      (checkBlock_preconditions (demoClient 0 50 40) 5 1 ⟨0, 50, [50]⟩ rfl).1 (Or.inl rfl)⟩,
    ⟨⟨rfl, by decide, by decide, by decide⟩,
      (checkBlock_preconditions (demoClient 100 103 95) 20 1 ⟨100, 103, [103]⟩ rfl).2.2
        (by decide) (by decide)
        ⟨[[103], [102], [101], [100], [99], [98], [97], [96], [95], [94]], .succeeded⟩
        (by decide)⟩⟩

/-- C11, counterexample: the coordinator reports `earliest = 100` and
`latest = 50`, so `latest < earliest`.  The state is not rejected: the
verifier asks for the header of hash `[50]` and, the query failing, ends in
success. -/
theorem checkBlock_traces_latest_below_earliest :
    (demoClient 100 50 60).GetBlockHeaderStateByChain 1
      = .ok (some (some ⟨100, 50, [50]⟩)) ∧
    (50 : Int) < 100 ∧
    checkBlock (demoClient 100 50 60) 1 1 = some ⟨[[50]], .succeeded⟩ :=
  ⟨rfl, by decide, by decide⟩

/-- C12, as amended: for every header state with `earliest ≠ 0` and
`latest ≠ earliest`, and every header store in which the parent-hash walk
from `latest_hash` retrieves the headers `headers` and then fails, the
verifier, given more fuel than headers, ends; it asked for `latest_hash` and
for the parent hash of every header retrieved; and it succeeds if and only if
`n ≤ earliest`, where `n` is one less (in `int64`) than the height of the
last header retrieved, and `latest` if none was retrieved. -/
theorem checkBlock_trace_assertion (client : ObserverClient) (fuel : Nat) (chainID : Int)
    (state : BlockHeaderState) (headers : List BlockHeader)
    (hS : client.GetBlockHeaderStateByChain chainID = .ok (some (some state)))
    (hE : state.EarliestHeight ≠ 0) (hL : state.LatestHeight ≠ state.EarliestHeight)
    (hW : walkStops client state.LatestBlockHash headers = true)
    (hfuel : headers.length < fuel) :
    ∃ run, checkBlock client fuel chainID = some run ∧
      run.calls = state.LatestBlockHash :: headers.map (fun header => header.ParentHash) ∧
      (run.result = .succeeded ↔
        stopHeight state.LatestHeight headers ≤ state.EarliestHeight) ∧
      (run.result = .succeeded ∨
        run.result = .tracingFailed state.EarliestHeight
          (stopHeight state.LatestHeight headers)) := by
  rw [checkBlock_traces client fuel chainID state hS hE hL,
    traceBack_walk client headers state.LatestBlockHash fuel state.LatestHeight [] hW hfuel]
  simp only [List.nil_append]
  by_cases hgt : stopHeight state.LatestHeight headers > state.EarliestHeight
  · rw [if_pos hgt]
    refine ⟨_, rfl, rfl, ?_, Or.inr rfl⟩
    constructor
    · intro h; cases h
    · intro hle; exact absurd hle (not_le.mpr hgt)
  · rw [if_neg hgt]
    exact ⟨_, rfl, rfl, ⟨fun _ => not_lt.mp hgt, fun _ => rfl⟩, Or.inl rfl⟩

/-- C12, witness: `earliest = 100`, `latest = 101`, the store holding the
headers of heights 101 down to 95: the walk retrieves seven headers and
fails on the hash `[94]`. -/
theorem checkBlock_trace_assertion_witness :
    ((demoClient 100 101 95).GetBlockHeaderStateByChain 1
        = .ok (some (some ⟨100, 101, [101]⟩)) ∧
      (100 : Int) ≠ 0 ∧ (101 : Int) ≠ 100 ∧
      walkStops (demoClient 100 101 95) [101] (demoHeaders 101 95) = true ∧
      (demoHeaders 101 95).length < 8) ∧
    ∃ run, checkBlock (demoClient 100 101 95) 8 1 = some run ∧
      run.calls = [101] :: (demoHeaders 101 95).map (fun header => header.ParentHash) ∧
      (run.result = .succeeded ↔ stopHeight 101 (demoHeaders 101 95) ≤ 100) ∧
      (run.result = .succeeded ∨
        run.result = .tracingFailed 100 (stopHeight 101 (demoHeaders 101 95))) :=
  ⟨⟨rfl, by decide, by decide, by decide, by decide⟩,
    checkBlock_trace_assertion (demoClient 100 101 95) 8 1 ⟨100, 101, [101]⟩
      (demoHeaders 101 95) rfl (by decide) (by decide) (by decide) (by decide)⟩

/-- C12, counterexample: `earliest = 100`, `latest = 102`, the store holding
the headers of heights 102 and 101 only.  The state passes the preconditions
and the walk fails on the hash `[100]`; the last header retrieved has height
101, which is above `earliest`, and the verifier ends in success, because it
compares `101 - 1` with `earliest`. -/
theorem checkBlock_succeeds_above_earliest :
    (demoClient 100 102 101).GetBlockHeaderStateByChain 1
      = .ok (some (some ⟨100, 102, [102]⟩)) ∧
    ((100 : Int) > 0 ∧ (102 : Int) > 100) ∧
    walkStops (demoClient 100 102 101) [102] [⟨102, [101]⟩, ⟨101, [100]⟩] = true ∧
    lastRetrievedHeight 102 [⟨102, [101]⟩, ⟨101, [100]⟩] = 101 ∧
    ¬ (lastRetrievedHeight 102 [⟨102, [101]⟩, ⟨101, [100]⟩] ≤ 100) ∧
    checkBlock (demoClient 100 102 101) 3 1 =
      some ⟨[[102], [101], [100]], .succeeded⟩ :=
  ⟨rfl, by decide, by decide, by decide, by decide, by decide⟩

end Smoketests
